import Mathlib

namespace DTN7

/-!
Verification of the message codec and validation layer of the dtn7-plus
repository: the tagged-union location codec (src/location/loc.rs,
src/location/block.rs), the SMS envelope (src/sms/mod.rs) and the news
envelope (src/news/mod.rs).  External collaborators that the sources call
into (the smaz text compressor, the bp7 bundle and endpoint types, the
serde_cbor value layer, and Rust standard-library UTF-8 conversions) are
modelled explicitly; each model carries a comment naming what it models.
Bytes are modelled as `Nat` (with explicit `< 256` bounds where overflow
matters), fallible operations return `Option` or `Except`, and `expect`
style panics are modelled as `none`.
-/

/-! ## UTF-8 model

Models Rust's `str::as_bytes` / `String::from_utf8` / `String::from_utf8_lossy`.
-/

/-- Encoding of one Unicode scalar value as UTF-8 bytes (standard UTF-8);
models the per-scalar encoding used by Rust's `str::as_bytes`. -/
def charUtf8 (c : Char) : List Nat :=
  if c.toNat < 0x80 then [c.toNat]
  else if c.toNat < 0x800 then [0xC0 + c.toNat / 64, 0x80 + c.toNat % 64]
  else if c.toNat < 0x10000 then
    [0xE0 + c.toNat / 4096, 0x80 + c.toNat / 64 % 64, 0x80 + c.toNat % 64]
  else
    [0xF0 + c.toNat / 262144, 0x80 + c.toNat / 4096 % 64, 0x80 + c.toNat / 64 % 64,
      0x80 + c.toNat % 64]

/-- UTF-8 encoding of a character list. -/
def utf8EncodeChars : List Char → List Nat
  | [] => []
  | c :: cs => charUtf8 c ++ utf8EncodeChars cs

/-- UTF-8 encoding of a string; models Rust `str::as_bytes` on the string's
scalar values. -/
def utf8Encode (s : String) : List Nat := utf8EncodeChars s.data

/-- Continuation of `utf8ParseChar` for a two-byte scalar with lead byte `b`. -/
def utf8Parse2 (b : Nat) : List Nat → Option (Char × List Nat)
  | c1 :: r =>
    if 0x80 ≤ c1 ∧ c1 < 0xC0 then
      some (Char.ofNat ((b - 0xC0) * 64 + (c1 - 0x80)), r)
    else none
  | [] => none

/-- Continuation of `utf8ParseChar` for a three-byte scalar with lead byte `b`
(overlong forms and surrogates rejected). -/
def utf8Parse3 (b : Nat) : List Nat → Option (Char × List Nat)
  | c1 :: c2 :: r =>
    if 0x80 ≤ c1 ∧ c1 < 0xC0 ∧ 0x80 ≤ c2 ∧ c2 < 0xC0 ∧
        0x800 ≤ (b - 0xE0) * 4096 + (c1 - 0x80) * 64 + (c2 - 0x80) ∧
        ((b - 0xE0) * 4096 + (c1 - 0x80) * 64 + (c2 - 0x80) < 0xD800 ∨
          0xE000 ≤ (b - 0xE0) * 4096 + (c1 - 0x80) * 64 + (c2 - 0x80)) then
      some (Char.ofNat ((b - 0xE0) * 4096 + (c1 - 0x80) * 64 + (c2 - 0x80)), r)
    else none
  | _ => none

/-- Continuation of `utf8ParseChar` for a four-byte scalar with lead byte `b`. -/
def utf8Parse4 (b : Nat) : List Nat → Option (Char × List Nat)
  | c1 :: c2 :: c3 :: r =>
    if 0x80 ≤ c1 ∧ c1 < 0xC0 ∧ 0x80 ≤ c2 ∧ c2 < 0xC0 ∧ 0x80 ≤ c3 ∧ c3 < 0xC0 ∧
        0x10000 ≤ (b - 0xF0) * 262144 + (c1 - 0x80) * 4096 + (c2 - 0x80) * 64 + (c3 - 0x80) ∧
        (b - 0xF0) * 262144 + (c1 - 0x80) * 4096 + (c2 - 0x80) * 64 + (c3 - 0x80) < 0x110000 then
      some (Char.ofNat
        ((b - 0xF0) * 262144 + (c1 - 0x80) * 4096 + (c2 - 0x80) * 64 + (c3 - 0x80)), r)
    else none
  | _ => none

/-- Parse one UTF-8 scalar from the front of a byte list: the decoded
character and the remaining bytes, or `none` if the front is not a valid
minimal UTF-8 scalar encoding. -/
def utf8ParseChar : List Nat → Option (Char × List Nat)
  | [] => none
  | b :: rest =>
    if b < 0x80 then some (Char.ofNat b, rest)
    else if b < 0xC2 then none
    else if b < 0xE0 then utf8Parse2 b rest
    else if b < 0xF0 then utf8Parse3 b rest
    else if b < 0xF5 then utf8Parse4 b rest
    else none

/-- Strict UTF-8 decoding with recursion fuel (always called with fuel at
least the length of the byte list); models Rust `String::from_utf8`:
succeeds exactly on valid UTF-8. -/
def utf8DecodeAux : Nat → List Nat → Option (List Char)
  | _, [] => some []
  | 0, _ :: _ => none
  | fuel + 1, b :: bs =>
    match utf8ParseChar (b :: bs) with
    | some (c, r) => (utf8DecodeAux fuel r).map (c :: ·)
    | none => none

/-- Strict UTF-8 decoding; models Rust `String::from_utf8`. -/
def utf8DecodeStrict (bs : List Nat) : Option (List Char) := utf8DecodeAux bs.length bs

/-- Lossy UTF-8 decoding with recursion fuel; models
`String::from_utf8_lossy`.  Exact on valid UTF-8 input, the only region
any result below depends on; on invalid input it emits one U+FFFD replacement
character per offending byte, a simplification of Rust's maximal-subpart
policy. -/
def utf8LossyAux : Nat → List Nat → List Char
  | _, [] => []
  | 0, _ :: _ => []
  | fuel + 1, b :: bs =>
    match utf8ParseChar (b :: bs) with
    | some (c, r) => c :: utf8LossyAux fuel r
    | none => Char.ofNat 0xFFFD :: utf8LossyAux fuel bs

/-- Lossy UTF-8 decoding; models Rust `String::from_utf8_lossy`. -/
def utf8DecodeLossy (bs : List Nat) : List Char := utf8LossyAux bs.length bs

/-! ## Smaz text compressor model

Models the external `smaz` crate that `smaz_compress` / `smaz_decompress` in
src/sms/mod.rs and src/news/mod.rs delegate to: a greedy longest-match
static-dictionary byte compressor.  Output bytes below 254 are dictionary
codes; 254 escapes one verbatim byte; 255 introduces a counted verbatim run
(count byte holds length minus one).
-/

/-- Static dictionary of the external smaz compressor: 254 entries of one to
seven ASCII bytes, indexed by output code 0–253 (the classic smaz codebook).
Every theorem below is independent of the particular entries; the proofs use
only that there are 254 of them (so codes never collide with the two escape
bytes) and that `smaz_compress` emits code `c` only when the input starts
with entry `c`. -/
def smazCodebookStrings : List String :=
  [" ", "the", "e", "t", "a", "of", "o", "and", "i", "n",
   "s", "e ", "r", " th", " t", "in", "he", "th", "h", "he ",
   "to", "\r\n", "l", "s ", "d", " a", "an", "er", "c", " o",
   "d ", "on", " of", "re", "of ", "t ", ", ", "is", "u", "at",
   "   ", "n ", "or", "which", "f", "m", "as", "it", "that", "\n",
   "was", "en", "  ", " w", "es", " an", " i", "\r", "f ", "g",
   "p", "nd", " s", "nd ", "ed ", "w", "ed", "http://", "for", "te",
   "ing", "y ", "The", " c", "ti", "r ", "his", "st", " in", "ar",
   "nt", ",", " to", "y", "ng", " h", "with", "le", "al", "to ",
   "b", "ou", "be", "were", " b", "se", "o ", "ent", "ha", "ng ",
   "their", "\"", "hi", "from", " f", "in ", "de", "ion", "me", "v",
   ".", "ve", "all", "re ", "ri", "ro", "is ", "co", "f t", "are",
   "ea", ". ", "her", " m", "er ", " p", "es ", "by", "they", "di",
   "ra", "ic", "not", "s, ", "d t", "at ", "ce", "la", "h ", "ne",
   "as ", "tio", "on ", "n t", "io", "we", " a ", "om", ", a", "s o",
   "ur", "li", "ll", "ch", "had", "this", "e t", "g ", "e\r\n", " wh",
   "ere", " co", "e o", "a ", "us", " d", "ss", "\n\r\n", "\r\n\r", "=\"",
   " be", " e", "s a", "ma", "one", "t t", "or ", "but", "el", "so",
   "l ", "e s", "s,", "no", "ter", " io", "ons", "s t", "e, ", "but ",
   "is t", "ant", "ave", "hat", "ich", "ould", "ht ", "have", "ery", "ess",
   "ver", "rs ", "nce", "ns", "ist", "ee", "ot ", "ment", "est", "enc",
   "ill", "ate", "ly ", "ry", "ses", "ck", "ov", "ain", "ide", "ect",
   "red", "ay", "ld ", "ost", "ort", "ive", "ith", "igh", "ime", "ace",
   "ous", "ell", "our", "oun", "op ", "uld", "ull", "ear", "ings", "out",
   "ure", "ard", "ine", "n a", "ank", "row", "igh ", "ame", "ood", "ought",
   "unt", "ity", "act", "rom"]

/-- The smaz dictionary as byte lists. -/
def smazCodebook : List (List Nat) := smazCodebookStrings.map utf8Encode

/-- Linear search of the dictionary for an exact entry match, returning the
code (the entry's index plus the accumulator `i`); models the hash-map
lookup used by the smaz crate's `compress`. -/
def smazLookup : List (List Nat) → Nat → List Nat → Option Nat
  | [], _, _ => none
  | e :: es, i, s => if e = s then some i else smazLookup es (i + 1) s

/-- Try dictionary matches of the first `l`, `l-1`, …, 1 bytes of the input,
longest first; models the inner loop of the smaz crate's `compress`. -/
def smazMatchTry (input : List Nat) : Nat → Option (Nat × Nat)
  | 0 => none
  | l + 1 =>
    match smazLookup smazCodebook 0 (input.take (l + 1)) with
    | some c => some (c, l + 1)
    | none => smazMatchTry input l

/-- Longest dictionary match at the front of `input` (at most 7 bytes, the
length of the longest dictionary entry): the code and the matched length. -/
def smazMatch (input : List Nat) : Option (Nat × Nat) :=
  smazMatchTry input (min 7 input.length)

/-- Emit pending verbatim bytes: a single byte as `254 b`, two or more as
`255 (len-1) bytes…`; models `flush_verbatim` in the smaz crate.  The empty
case emits nothing, matching the `is_empty` guards at every call site. -/
def smazFlushVerbatim : List Nat → List Nat
  | [] => []
  | [v] => [254, v]
  | v :: w :: rest => 255 :: (rest.length + 1) :: v :: w :: rest

/-- Greedy smaz compression with recursion fuel (every step consumes at
least one input byte, so fuel equal to the input length suffices); models
the main loop of the smaz crate's `compress`, with `verb` the pending
verbatim buffer, flushed when full at 256 bytes. -/
def smazCompressAux : Nat → List Nat → List Nat → List Nat
  | _, [], verb => smazFlushVerbatim verb
  | 0, _ :: _, verb => smazFlushVerbatim verb
  | fuel + 1, b :: rest, verb =>
    match smazMatch (b :: rest) with
    | some (c, len) =>
      smazFlushVerbatim verb ++ c :: smazCompressAux fuel ((b :: rest).drop len) []
    | none =>
      if verb.length + 1 = 256 then
        smazFlushVerbatim (verb ++ [b]) ++ smazCompressAux fuel rest []
      else
        smazCompressAux fuel rest (verb ++ [b])

/-- Smaz compression; models `smaz::compress`, wrapped as `smaz_compress`
in src/sms/mod.rs and src/news/mod.rs.  Never fails. -/
def smaz_compress (input : List Nat) : List Nat := smazCompressAux input.length input []

/-- Smaz decompression with recursion fuel; models the smaz crate's
`decompress`: bytes below 254 index the dictionary, 254 escapes one
verbatim byte, 255 introduces a counted verbatim run; malformed input gives
`none` (the crate's `DecompressError`). -/
def smazDecompressAux : Nat → List Nat → Option (List Nat)
  | _, [] => some []
  | 0, _ :: _ => none
  | fuel + 1, b :: rest =>
    if b = 254 then
      match rest with
      | v :: rest1 => (smazDecompressAux fuel rest1).map (v :: ·)
      | [] => none
    else if b = 255 then
      match rest with
      | l :: rest1 =>
        if l + 1 ≤ rest1.length then
          (smazDecompressAux fuel (rest1.drop (l + 1))).map (rest1.take (l + 1) ++ ·)
        else none
      | [] => none
    else if b < 254 then
      (smazDecompressAux fuel rest).map (smazCodebook.getD b [] ++ ·)
    else none

/-- Smaz decompression; models `smaz::decompress`, wrapped as
`smaz_decompress` in src/sms/mod.rs and src/news/mod.rs (`none` models the
`DecompressError` result). -/
def smaz_decompress (input : List Nat) : Option (List Nat) :=
  smazDecompressAux input.length input

/-! ## Wire data model

CBOR values as produced and consumed by serde_cbor, together with the
external bp7 endpoint type and the uuid type.
-/

/-- Bit pattern of an IEEE-754 single-precision float.  The codec under
verification never computes with floats — it only copies them through the
wire — so the model carries the raw 32-bit pattern. -/
structure F32 where
  bits : Nat
deriving DecidableEq, Repr

/-- Endpoint identifier; models bp7's `EndpointID` as used by this
repository: `Ipn` carries node and service numbers, `Dtn` carries the node
name and the optional service name of the address, `DtnNone` is the none
endpoint. -/
inductive EndpointID where
  | Ipn (node : Nat) (service : Nat)
  | Dtn (node : String) (service : Option String)
  | DtnNone
deriving DecidableEq, Repr

/-- Group-endpoint test; models bp7 `EndpointID::is_non_singleton`: a
dtn-scheme endpoint whose service name begins with `~` denotes a group
(non-singleton) endpoint; ipn and none endpoints are singletons. -/
def EndpointID.is_non_singleton : EndpointID → Bool
  | .Dtn _ (some s) =>
    match s.data with
    | c :: _ => c == '~'
    | [] => false
  | _ => false

/-- Node part of an endpoint; models bp7 `EndpointID::node`. -/
def EndpointID.node : EndpointID → Option String
  | .Ipn n _ => some (toString n)
  | .Dtn n _ => some n
  | .DtnNone => none

/-- 128-bit UUID as its 16 bytes; models the uuid crate's `Uuid`. -/
abbrev Uuid := {l : List Nat // l.length = 16}

/-- The nil UUID (all bits zero). -/
def uuidNil : Uuid := ⟨List.replicate 16 0, by simp⟩

/-- Zero-pad a random byte supply to exactly 16 bytes (the real source of
randomness always supplies 16). -/
def uuidPad (r : List Nat) : List Nat := (r ++ List.replicate 16 0).take 16

/-- Version-4 UUID built from 16 random bytes; models `Uuid::new_v4` (the
uuid crate's `Builder::from_random_bytes`): byte 6 keeps its low nibble and
receives version nibble 4, byte 8 keeps its low six bits and receives the
RFC 4122 variant bits, all other bytes are the random bytes. -/
def uuidNewV4 (r : List Nat) : Uuid :=
  ⟨(uuidPad r).take 6 ++ ((uuidPad r).getD 6 0 % 16 + 0x40) :: (uuidPad r).getD 7 0 ::
      ((uuidPad r).getD 8 0 % 64 + 0x80) :: (uuidPad r).drop 9, by
    simp [uuidPad]⟩

/-- UUID version number; models the uuid crate's `get_version_num` (the
high nibble of byte 6). -/
def uuidVersion (u : Uuid) : Nat := u.val.getD 6 0 / 16

/-- Node-type bitmask of src/location/mod.rs: MOBILE 0x01, PURESENDER 0x02,
GW 0x04, INTERNET 0x08, BATTERY 0x10 in a u16.  The subtype invariant
(`n &&& 0xFFE0 = 0`, i.e. only the five defined bits, and `n < 65536`)
captures the bitflags guarantee that a safely constructed value only ever
carries defined bits. -/
abbrev NodeTypeFlags := {n : Nat // n &&& 0xFFE0 = 0 ∧ n < 65536}

/-- Empty flag set; models `NodeTypeFlags::default()` (bits 0). -/
def NodeTypeFlags.defaultFlags : NodeTypeFlags := ⟨0, by decide⟩

/-- Flag set from raw bits; models the bitflags-generated
`NodeTypeFlags::from_bits` on a u16 argument, which yields `None` exactly
when an undefined bit is set (`bits & !Self::all().bits() != 0`, and for a
u16 the complement of the defined bits 0x001F is 0xFFE0). -/
def NodeTypeFlags.from_bits (n : Nat) : Option NodeTypeFlags :=
  if h : n &&& 0xFFE0 = 0 ∧ n < 65536 then some ⟨n, h⟩ else none

/-- CBOR value tree; models the serde_cbor data model as exercised by this
repository's codecs: unsigned integers, UTF-8 text, byte strings, booleans,
null, single-precision floats, arrays, and text-keyed maps (the only map
shape these codecs produce).  An `eid` leaf stands for a bp7 `EndpointID`
serialized by the external bp7 codec, which round-trips it. -/
inductive Cbor where
  | nat (n : Nat)
  | text (s : String)
  | bytes (bs : List Nat)
  | bool (b : Bool)
  | null
  | f32 (x : F32)
  | eid (e : EndpointID)
  | arr (items : List Cbor)
  | map (kvs : List (String × Cbor))

/-- Decode errors of the tagged-union codec, mirroring the serde error
classes raised by the visitors and by serde_cbor: `unknownVariant` for the
`invalid_value` error on an unrecognized discriminant, `truncated` (with
the element index) for `invalid_length` on a missing element,
`typeMismatch` for an element of the wrong shape, `trailing` for
serde_cbor's trailing-data error when a sequence holds more elements than
the visitor consumed, and the two field errors of derived struct
deserialization. -/
inductive DecodeError where
  | unknownVariant (n : Nat)
  | truncated (idx : Nat)
  | typeMismatch
  | trailing
  | missingField
  | duplicateField
deriving DecidableEq, Repr

/-- Read one sequence element as a u8; models `next_element::<u8>()` via
serde_cbor (an out-of-range integer or any other shape is a type error). -/
def readU8 : Cbor → Except DecodeError Nat
  | .nat n => if n < 256 then .ok n else .error .typeMismatch
  | _ => .error .typeMismatch

/-- Read one sequence element as a u16; models `next_element::<u16>()`. -/
def readU16 : Cbor → Except DecodeError Nat
  | .nat n => if n < 65536 then .ok n else .error .typeMismatch
  | _ => .error .typeMismatch

/-- Read one sequence element as a u64; models `next_element::<u64>()` (a
CBOR unsigned always fits in a u64). -/
def readU64 : Cbor → Except DecodeError Nat
  | .nat n => .ok n
  | _ => .error .typeMismatch

/-- Read one sequence element as a string; models
`next_element::<String>()`. -/
def readText : Cbor → Except DecodeError String
  | .text s => .ok s
  | _ => .error .typeMismatch

/-- Read one sequence element as an `(f32, f32)` tuple (serialized by serde
as a two-element array); models `next_element::<(f32, f32)>()`. -/
def readF32Pair : Cbor → Except DecodeError (F32 × F32)
  | .arr [.f32 a, .f32 b] => .ok (a, b)
  | _ => .error .typeMismatch

/-- Read one sequence element as an `EndpointID` (decoded by the external
bp7 codec); models `next_element::<EndpointID>()`. -/
def readEid : Cbor → Except DecodeError EndpointID
  | .eid e => .ok e
  | _ => .error .typeMismatch

/-! ## Location codec (src/location/loc.rs) -/

/-- Variant tags of `Location`; models the `LocationType` enum
(src/location/loc.rs lines 8–15). -/
inductive LocationType where
  | LatLon
  | Human
  | WFW
  | XY
deriving DecidableEq, Repr

/-- Numeric discriminant of each variant (`LatLon = 1, Human = 2, WFW = 3,
XY = 4`). -/
def LocationType.tag : LocationType → Nat
  | .LatLon => 1
  | .Human => 2
  | .WFW => 3
  | .XY => 4

/-- Discriminant lookup; models the derived `LocationType::try_from`
(derive_try_from_primitive). -/
def LocationType.try_from (n : Nat) : Option LocationType :=
  if n = 1 then some .LatLon
  else if n = 2 then some .Human
  else if n = 3 then some .WFW
  else if n = 4 then some .XY
  else none

/-- Location in various addressing schemes; models `Location`
(src/location/loc.rs lines 19–29). -/
inductive Location where
  | LatLon (a b : F32)
  | Human (address : String)
  | WFW (address : String)
  | XY (a b : F32)
deriving DecidableEq, Repr

/-- Serialization of a `Location` as the element list of its two-element
CBOR sequence (tag byte, then the variant payload); models
`impl Serialize for Location` (src/location/loc.rs lines 31–57). -/
def Location.encode : Location → List Cbor
  | .LatLon a b => [.nat (LocationType.tag .LatLon), .arr [.f32 a, .f32 b]]
  | .Human address => [.nat (LocationType.tag .Human), .text address]
  | .WFW address => [.nat (LocationType.tag .WFW), .text address]
  | .XY a b => [.nat (LocationType.tag .XY), .arr [.f32 a, .f32 b]]

/-- Deserialization of a `Location` from the element list of a CBOR
sequence; models `LocationVisitor::visit_seq` (src/location/loc.rs lines
73–112) together with serde_cbor's check that the visitor consumed every
element of the sequence. -/
def Location.decodeSeq : List Cbor → Except DecodeError Location
  | [] => .error (.truncated 0)
  | t :: rest =>
    match readU8 t with
    | .error e => .error e
    | .ok n =>
      match LocationType.try_from n with
      | none => .error (.unknownVariant n)
      | some .LatLon =>
        match rest with
        | [] => .error (.truncated 1)
        | x :: rest2 =>
          match readF32Pair x with
          | .error e => .error e
          | .ok (a, b) =>
            match rest2 with
            | [] => .ok (.LatLon a b)
            | _ :: _ => .error .trailing
      | some .Human =>
        match rest with
        | [] => .error (.truncated 1)
        | x :: rest2 =>
          match readText x with
          | .error e => .error e
          | .ok address =>
            match rest2 with
            | [] => .ok (.Human address)
            | _ :: _ => .error .trailing
      | some .WFW =>
        match rest with
        | [] => .error (.truncated 1)
        | x :: rest2 =>
          match readText x with
          | .error e => .error e
          | .ok address =>
            match rest2 with
            | [] => .ok (.WFW address)
            | _ :: _ => .error .trailing
      | some .XY =>
        match rest with
        | [] => .error (.truncated 1)
        | x :: rest2 =>
          match readF32Pair x with
          | .error e => .error e
          | .ok (a, b) =>
            match rest2 with
            | [] => .ok (.XY a b)
            | _ :: _ => .error .trailing

/-- Deserialization of a `Location` from a CBOR value (the serialized form
is a sequence); models serde_cbor driving `LocationVisitor` through
`deserialize_any`. -/
def Location.decode : Cbor → Except DecodeError Location
  | .arr items => Location.decodeSeq items
  | _ => .error .typeMismatch

/-! ## Location block codec (src/location/block.rs) -/

/-- Variant tags of `LocationBlockData`; models the `LocationBlockType`
enum of src/location/block.rs (Position = 1, FenceEllipse = 2,
FenceRect = 3, Trace = 4). -/
inductive LocationBlockType where
  | Position
  | FenceEllipse
  | FenceRect
  | Trace
deriving DecidableEq, Repr

/-- Numeric discriminant of each variant. -/
def LocationBlockType.tag : LocationBlockType → Nat
  | .Position => 1
  | .FenceEllipse => 2
  | .FenceRect => 3
  | .Trace => 4

/-- Discriminant lookup; models the derived `LocationBlockType::try_from`
(derive_try_from_primitive). -/
def LocationBlockType.try_from (n : Nat) : Option LocationBlockType :=
  if n = 1 then some .Position
  else if n = 2 then some .FenceEllipse
  else if n = 3 then some .FenceRect
  else if n = 4 then some .Trace
  else none

/-- Location block payload; models `LocationBlockData`
(src/location/block.rs lines 39–45). -/
inductive LocationBlockData where
  | Position (info : NodeTypeFlags) (coords : Location)
  | FenceEllipse (coords : Location) (r1 r2 : Nat)
  | FenceRect (topleft bottomright : Location)
  | Trace (info : NodeTypeFlags) (node : EndpointID) (coords : Location)
deriving DecidableEq

/-- Serialization of a `LocationBlockData` as the element list of its CBOR
sequence; models `impl Serialize for LocationBlockData`
(src/location/block.rs lines 47–85): the discriminant byte, then the
variant's fields in order (`info.bits()` as a u16, nested locations as
their own sequences, the trace node as a bp7-encoded endpoint). -/
def LocationBlockData.encode : LocationBlockData → List Cbor
  | .Position info coords =>
    [.nat (LocationBlockType.tag .Position), .nat info.val, .arr coords.encode]
  | .FenceEllipse coords r1 r2 =>
    [.nat (LocationBlockType.tag .FenceEllipse), .arr coords.encode, .nat r1, .nat r2]
  | .FenceRect topleft bottomright =>
    [.nat (LocationBlockType.tag .FenceRect), .arr topleft.encode, .arr bottomright.encode]
  | .Trace info node coords =>
    [.nat (LocationBlockType.tag .Trace), .nat info.val, .eid node, .arr coords.encode]

/-- Deserialization of a `LocationBlockData` from the element list of a
CBOR sequence; models `LocationBlockDataVisitor::visit_seq`
(src/location/block.rs lines 100–162), including the
`NodeTypeFlags::from_bits(..).unwrap_or_default()` treatment of the
node-type bitmask, together with serde_cbor's check that the visitor
consumed every element. -/
def LocationBlockData.decodeSeq : List Cbor → Except DecodeError LocationBlockData
  | [] => .error (.truncated 0)
  | t :: rest =>
    match readU8 t with
    | .error e => .error e
    | .ok n =>
      match LocationBlockType.try_from n with
      | none => .error (.unknownVariant n)
      | some .Position =>
        match rest with
        | [] => .error (.truncated 1)
        | x1 :: rest1 =>
          match readU16 x1 with
          | .error e => .error e
          | .ok bits =>
            match rest1 with
            | [] => .error (.truncated 2)
            | x2 :: rest2 =>
              match Location.decode x2 with
              | .error e => .error e
              | .ok coords =>
                match rest2 with
                | [] =>
                  .ok (.Position ((NodeTypeFlags.from_bits bits).getD
                    NodeTypeFlags.defaultFlags) coords)
                | _ :: _ => .error .trailing
      | some .FenceEllipse =>
        match rest with
        | [] => .error (.truncated 1)
        | x1 :: rest1 =>
          match Location.decode x1 with
          | .error e => .error e
          | .ok coords =>
            match rest1 with
            | [] => .error (.truncated 2)
            | x2 :: rest2 =>
              match readU64 x2 with
              | .error e => .error e
              | .ok r1 =>
                match rest2 with
                | [] => .error (.truncated 3)
                | x3 :: rest3 =>
                  match readU64 x3 with
                  | .error e => .error e
                  | .ok r2 =>
                    match rest3 with
                    | [] => .ok (.FenceEllipse coords r1 r2)
                    | _ :: _ => .error .trailing
      | some .FenceRect =>
        match rest with
        | [] => .error (.truncated 1)
        | x1 :: rest1 =>
          match Location.decode x1 with
          | .error e => .error e
          | .ok topleft =>
            match rest1 with
            | [] => .error (.truncated 2)
            | x2 :: rest2 =>
              match Location.decode x2 with
              | .error e => .error e
              | .ok bottomright =>
                match rest2 with
                | [] => .ok (.FenceRect topleft bottomright)
                | _ :: _ => .error .trailing
      | some .Trace =>
        match rest with
        | [] => .error (.truncated 1)
        | x1 :: rest1 =>
          match readU16 x1 with
          | .error e => .error e
          | .ok bits =>
            match rest1 with
            | [] => .error (.truncated 2)
            | x2 :: rest2 =>
              match readEid x2 with
              | .error e => .error e
              | .ok node =>
                match rest2 with
                | [] => .error (.truncated 3)
                | x3 :: rest3 =>
                  match Location.decode x3 with
                  | .error e => .error e
                  | .ok coords =>
                    match rest3 with
                    | [] =>
                      .ok (.Trace ((NodeTypeFlags.from_bits bits).getD
                        NodeTypeFlags.defaultFlags) node coords)
                    | _ :: _ => .error .trailing

/-- Deserialization of a `LocationBlockData` from a CBOR value; models
serde_cbor driving `LocationBlockDataVisitor` through `deserialize_any`. -/
def LocationBlockData.decode : Cbor → Except DecodeError LocationBlockData
  | .arr items => LocationBlockData.decodeSeq items
  | _ => .error .typeMismatch

/-! ## Bundle model (external bp7 collaborator) -/

/-- Creation timestamp (dtn time, sequence number); models bp7
`CreationTimestamp`. -/
structure CreationTimestamp where
  dtntime : Nat
  seqno : Nat
deriving DecidableEq, Repr

/-- Primary block; models the bp7 `PrimaryBlock` fields this repository
reads and writes. -/
structure PrimaryBlock where
  source : EndpointID
  destination : EndpointID
  creation_timestamp : CreationTimestamp
  lifetime : Nat
deriving DecidableEq, Repr

/-- Bundle; models bp7 `Bundle` as consumed here: the primary block and the
content of the payload block.  The payload is carried as the decoded CBOR
value of the payload bytes (`none` when the bundle has no payload block);
payload bytes that are not well-formed CBOR are rejected identically by
validation and by every accessor, so the model does not distinguish
them. -/
structure Bundle where
  primary : PrimaryBlock
  payload : Option Cbor

/-- Rendering of an endpoint as a URI string; models bp7's `Display` for
`EndpointID` (used only inside `Bundle::id`, which the sources copy
verbatim). -/
def EndpointID.toStr : EndpointID → String
  | .Ipn n s => "ipn:" ++ toString n ++ "." ++ toString s
  | .Dtn n (some s) => "dtn://" ++ n ++ "/" ++ s
  | .Dtn n none => "dtn://" ++ n
  | .DtnNone => "dtn:none"

/-- Bundle identifier; models bp7 `Bundle::id`, a string built from the
source endpoint and the creation timestamp.  The sources only copy this
string verbatim (into `references`), so only its determinism matters. -/
def Bundle.id (b : Bundle) : String :=
  b.primary.source.toStr ++ "-" ++ toString b.primary.creation_timestamp.dtntime ++ "-"
    ++ toString b.primary.creation_timestamp.seqno

/-! ## SMS envelope (src/sms/mod.rs) -/

/-- Error type of the sms module; models `SmsError` (src/sms/mod.rs lines
8–26).  Variants that wrap an external error value keep only the
variant. -/
inductive SmsError where
  | NonUtf8
  | Cbor
  | SmazDecompress
  | EndpointIdInvalid
  | NoMessage
  | InvalidEndpoint
  | PayloadMissing
  | InvalidSmsBundle
deriving DecidableEq, Repr

/-- Short-message record; models `SMS` (src/sms/mod.rs lines 144–151):
compression flag, encryption flag, message bytes (on-wire, compressed when
`comp` is set), optional signature bytes. -/
structure SMS where
  comp : Bool
  enc : Bool
  msg : List Nat
  sig : Option (List Nat)
deriving DecidableEq, Repr

/-- Serialization of an `SMS` record; models the derived `Serialize`
through serde_cbor: a map with the field names as text keys, `msg` as a
byte string (it carries `#[serde(with = "serde_bytes")]`), `sig` as null or
as an array of u8 (plain `Option<Vec<u8>>`). -/
def SMS.encode (s : SMS) : Cbor :=
  .map [("comp", .bool s.comp), ("enc", .bool s.enc), ("msg", .bytes s.msg),
    ("sig", match s.sig with | none => .null | some bs => .arr (bs.map .nat))]

/-- Decode a CBOR array of u8 values as a `Vec<u8>`; models the derived
`Deserialize` for `Vec<u8>` (element-wise u8 from a sequence). -/
def decodeByteSeq : List Cbor → Option (List Nat)
  | [] => some []
  | .nat n :: rest => if n < 256 then (decodeByteSeq rest).map (n :: ·) else none
  | _ :: _ => none

/-- Decode a field value as `Vec<u8>` under serde_bytes (accepts a byte
string or a sequence of u8). -/
def decodeBytesField : Cbor → Option (List Nat)
  | .bytes bs => some bs
  | .arr items => decodeByteSeq items
  | _ => none

/-- Decode a field value as `Option<Vec<u8>>` (null or a u8 sequence). -/
def decodeOptBytes : Cbor → Option (Option (List Nat))
  | .null => some none
  | .arr items => (decodeByteSeq items).map some
  | _ => none

/-- Decode a field value as a bool. -/
def decodeBool : Cbor → Option Bool
  | .bool b => some b
  | _ => none

/-- Field loop of the derived `Deserialize` for `SMS` over a text-keyed
CBOR map: fields may appear in any order, a duplicate field is an error,
unknown fields are ignored (serde's default), a missing mandatory field is
an error, and a missing `Option` field becomes `None`. -/
def decodeSMSFields : List (String × Cbor) → Option Bool → Option Bool →
    Option (List Nat) → Option (Option (List Nat)) → Except DecodeError SMS
  | [], comp?, enc?, msg?, sig? =>
    match comp?, enc?, msg? with
    | some c, some e, some m => .ok ⟨c, e, m, sig?.getD none⟩
    | _, _, _ => .error .missingField
  | (k, v) :: rest, comp?, enc?, msg?, sig? =>
    if k = "comp" then
      match comp? with
      | some _ => .error .duplicateField
      | none =>
        match decodeBool v with
        | some bl => decodeSMSFields rest (some bl) enc? msg? sig?
        | none => .error .typeMismatch
    else if k = "enc" then
      match enc? with
      | some _ => .error .duplicateField
      | none =>
        match decodeBool v with
        | some bl => decodeSMSFields rest comp? (some bl) msg? sig?
        | none => .error .typeMismatch
    else if k = "msg" then
      match msg? with
      | some _ => .error .duplicateField
      | none =>
        match decodeBytesField v with
        | some m => decodeSMSFields rest comp? enc? (some m) sig?
        | none => .error .typeMismatch
    else if k = "sig" then
      match sig? with
      | some _ => .error .duplicateField
      | none =>
        match decodeOptBytes v with
        | some sg => decodeSMSFields rest comp? enc? msg? (some sg)
        | none => .error .typeMismatch
    else decodeSMSFields rest comp? enc? msg? sig?

/-- Deserialization of an `SMS` record from a CBOR value; models
`serde_cbor::from_slice::<SMS>`. -/
def SMS.decode : Cbor → Except DecodeError SMS
  | .map kvs => decodeSMSFields kvs none none none none
  | _ => .error .typeMismatch

/-- Compression flag accessor; models `SMS::compression`. -/
def SMS.compression (s : SMS) : Bool := s.comp

/-- Encryption flag accessor; models `SMS::encryption`. -/
def SMS.encryption (s : SMS) : Bool := s.enc

/-- Signature accessor; models `SMS::signature`. -/
def SMS.signature (s : SMS) : Option (List Nat) := s.sig

/-- Message accessor; models `SMS::msg` (src/sms/mod.rs lines 167–174):
when the compression flag is set, decompress (the `expect` panic on a
decompression failure is modelled as `none`), then convert the bytes with
lossy UTF-8. -/
def SMS.msgAcc (s : SMS) : Option String :=
  if s.comp then
    (smaz_decompress s.msg).map (fun bs => String.mk (utf8DecodeLossy bs))
  else
    some (String.mk (utf8DecodeLossy s.msg))

/-- Short-message builder state; models `SmsBuilder` (src/sms/mod.rs lines
177–182). -/
structure SmsBuilder where
  comp : Bool
  enc : Bool
  msg : Option String
  sig : Option (List Nat)
deriving DecidableEq, Repr

/-- Fresh builder; models `SmsBuilder::new` (src/sms/mod.rs lines
184–192): compression on, encryption off, no message, no signature. -/
def SmsBuilder.new : SmsBuilder :=
  { comp := true, enc := false, msg := none, sig := none }

/-- Setter; models `SmsBuilder::compression`. -/
def SmsBuilder.setCompression (b : SmsBuilder) (comp : Bool) : SmsBuilder := { b with comp }

/-- Setter; models `SmsBuilder::encryption`. -/
def SmsBuilder.setEncryption (b : SmsBuilder) (enc : Bool) : SmsBuilder := { b with enc }

/-- Setter; models `SmsBuilder::message`. -/
def SmsBuilder.setMessage (b : SmsBuilder) (m : String) : SmsBuilder := { b with msg := some m }

/-- Setter; models `SmsBuilder::signature`. -/
def SmsBuilder.setSignature (b : SmsBuilder) (sg : List Nat) : SmsBuilder := { b with sig := some sg }

/-- Builder finalization; models `SmsBuilder::build` (src/sms/mod.rs lines
209–225): fails with `NoMessage` when no message text was set, otherwise
stores the message bytes, smaz-compressed when the compression flag is
on. -/
def SmsBuilder.build (b : SmsBuilder) : Except SmsError SMS :=
  match b.msg with
  | none => .error .NoMessage
  | some m =>
    .ok { comp := b.comp, enc := b.enc,
          msg := if b.comp then smaz_compress (utf8Encode m) else utf8Encode m,
          sig := b.sig }

/-- Validated sms bundle wrapper; models the newtype `SMSBundle`
(src/sms/mod.rs line 37). -/
structure SMSBundle where
  bundle : Bundle

/-- Endpoint convention of the sms service; models
`SMSBundle::is_eid_valid` (src/sms/mod.rs lines 53–71): an ipn endpoint
must use service number 767, a dtn endpoint must use service name `sms` or
`~sms`, anything else is invalid.  The same check is applied to the source
and to the destination. -/
def SMSBundle.is_eid_valid (eid : EndpointID) : Except SmsError Unit :=
  match eid with
  | .Ipn _ service => if service = 767 then .ok () else .error .InvalidEndpoint
  | .Dtn _ service =>
    if service = some "sms" ∨ service = some "~sms" then .ok () else .error .InvalidEndpoint
  | .DtnNone => .error .InvalidEndpoint

/-- Validation; models `SMSBundle::is_valid` (src/sms/mod.rs lines 72–90):
both addresses must satisfy the sms endpoint convention, the source must be
a singleton endpoint, the payload block must exist and decode as an `SMS`,
and the message bytes (after decompression when the compression flag is
set) must be valid UTF-8. -/
def SMSBundle.is_valid (sb : SMSBundle) : Except SmsError Unit :=
  match SMSBundle.is_eid_valid sb.bundle.primary.source with
  | .error e => .error e
  | .ok _ =>
    match SMSBundle.is_eid_valid sb.bundle.primary.destination with
    | .error e => .error e
    | .ok _ =>
      if sb.bundle.primary.source.is_non_singleton then .error .InvalidEndpoint
      else
        match sb.bundle.payload with
        | none => .error .PayloadMissing
        | some payload =>
          match SMS.decode payload with
          | .error _ => .error .Cbor
          | .ok sms =>
            if sms.comp then
              match smaz_decompress sms.msg with
              | none => .error .SmazDecompress
              | some bs =>
                match utf8DecodeStrict bs with
                | some _ => .ok ()
                | none => .error .NonUtf8
            else
              match utf8DecodeStrict sms.msg with
              | some _ => .ok ()
              | none => .error .NonUtf8

/-- Wrapping; models `TryFrom<Bundle> for SMSBundle` (src/sms/mod.rs lines
39–50): every validation failure is collapsed into the single
`InvalidSmsBundle` error. -/
def SMSBundle.try_from (b : Bundle) : Except SmsError SMSBundle :=
  match SMSBundle.is_valid ⟨b⟩ with
  | .error _ => .error .InvalidSmsBundle
  | .ok _ => .ok ⟨b⟩

/-- Record accessor; models `SMSBundle::sms` (src/sms/mod.rs lines
118–122); the two `expect` panics (missing payload, undecodable payload)
are modelled as `none`. -/
def SMSBundle.smsAcc (sb : SMSBundle) : Option SMS :=
  match sb.bundle.payload with
  | none => none
  | some payload =>
    match SMS.decode payload with
    | .ok sms => some sms
    | .error _ => none

/-- models `SMSBundle::compression`. -/
def SMSBundle.compressionAcc (sb : SMSBundle) : Option Bool := sb.smsAcc.map SMS.compression

/-- models `SMSBundle::encryption`. -/
def SMSBundle.encryptionAcc (sb : SMSBundle) : Option Bool := sb.smsAcc.map SMS.encryption

/-- models `SMSBundle::signature`. -/
def SMSBundle.signatureAcc (sb : SMSBundle) : Option (Option (List Nat)) :=
  sb.smsAcc.map SMS.signature

/-- models `SMSBundle::msg` (panics propagate from `SMS::msg`). -/
def SMSBundle.msgAcc (sb : SMSBundle) : Option String := sb.smsAcc.bind SMS.msgAcc

/-- models `SMSBundle::id`. -/
def SMSBundle.id (sb : SMSBundle) : String := sb.bundle.id

/-! ## News envelope (src/news/mod.rs) -/

/-- Error type of the news module; models `NewsError` (src/news/mod.rs
lines 10–32). -/
inductive NewsError where
  | BundleDecoding
  | NonUtf8
  | Cbor
  | SmazDecompress
  | EndpointIdInvalid
  | NoMessage
  | NoTopic
  | InvalidEndpoint
  | PayloadMissing
  | InvalidNewsBundle
deriving DecidableEq, Repr

/-- Discussion-post record; models `News` (src/news/mod.rs lines 207–219):
compression flag, encryption flag, topic bytes (on-wire, compressed when
`comp` is set), thread id, optional reference to the parent bundle id, tag
list, message bytes, optional signature. -/
structure News where
  comp : Bool
  enc : Bool
  topic : List Nat
  tid : Uuid
  references : Option String
  tags : List String
  msg : List Nat
  sig : Option (List Nat)
deriving DecidableEq

/-- Serialization of a `News` record; models the derived `Serialize`
through serde_cbor: a map with the field names as text keys, `topic` and
`msg` as byte strings (serde_bytes), the uuid as its 16 bytes (the uuid
crate's non-human-readable serialization), `references` as null or text,
`tags` as an array of text, `sig` as null or an array of u8. -/
def News.encode (n : News) : Cbor :=
  .map [("comp", .bool n.comp), ("enc", .bool n.enc), ("topic", .bytes n.topic),
    ("tid", .bytes n.tid.val),
    ("references", match n.references with | none => .null | some r => .text r),
    ("tags", .arr (n.tags.map .text)),
    ("msg", .bytes n.msg),
    ("sig", match n.sig with | none => .null | some bs => .arr (bs.map .nat))]

/-- Decode a field value as a `Uuid` (a 16-byte string, the uuid crate's
non-human-readable form). -/
def decodeUuid : Cbor → Option Uuid
  | .bytes bs => if h : bs.length = 16 then some ⟨bs, h⟩ else none
  | _ => none

/-- Decode a field value as `Option<String>` (null or text). -/
def decodeOptText : Cbor → Option (Option String)
  | .null => some none
  | .text s => some (some s)
  | _ => none

/-- Decode a CBOR array of text values as a `Vec<String>`. -/
def decodeTextSeq : List Cbor → Option (List String)
  | [] => some []
  | .text s :: rest => (decodeTextSeq rest).map (s :: ·)
  | _ :: _ => none

/-- Decode a field value as `Vec<String>`. -/
def decodeTags : Cbor → Option (List String)
  | .arr items => decodeTextSeq items
  | _ => none

/-- Field loop of the derived `Deserialize` for `News` over a text-keyed
CBOR map (same serde conventions as for `SMS`: any order, duplicates are
errors, unknown fields are ignored, missing `Option` fields become
`None`, other missing fields are errors). -/
def decodeNewsFields : List (String × Cbor) → Option Bool → Option Bool →
    Option (List Nat) → Option Uuid → Option (Option String) → Option (List String) →
    Option (List Nat) → Option (Option (List Nat)) → Except DecodeError News
  | [], comp?, enc?, topic?, tid?, refs?, tags?, msg?, sig? =>
    match comp?, enc?, topic?, tid?, tags?, msg? with
    | some c, some e, some tp, some td, some tg, some m =>
      .ok ⟨c, e, tp, td, refs?.getD none, tg, m, sig?.getD none⟩
    | _, _, _, _, _, _ => .error .missingField
  | (k, v) :: rest, comp?, enc?, topic?, tid?, refs?, tags?, msg?, sig? =>
    if k = "comp" then
      match comp? with
      | some _ => .error .duplicateField
      | none =>
        match decodeBool v with
        | some bl => decodeNewsFields rest (some bl) enc? topic? tid? refs? tags? msg? sig?
        | none => .error .typeMismatch
    else if k = "enc" then
      match enc? with
      | some _ => .error .duplicateField
      | none =>
        match decodeBool v with
        | some bl => decodeNewsFields rest comp? (some bl) topic? tid? refs? tags? msg? sig?
        | none => .error .typeMismatch
    else if k = "topic" then
      match topic? with
      | some _ => .error .duplicateField
      | none =>
        match decodeBytesField v with
        | some tp => decodeNewsFields rest comp? enc? (some tp) tid? refs? tags? msg? sig?
        | none => .error .typeMismatch
    else if k = "tid" then
      match tid? with
      | some _ => .error .duplicateField
      | none =>
        match decodeUuid v with
        | some td => decodeNewsFields rest comp? enc? topic? (some td) refs? tags? msg? sig?
        | none => .error .typeMismatch
    else if k = "references" then
      match refs? with
      | some _ => .error .duplicateField
      | none =>
        match decodeOptText v with
        | some r => decodeNewsFields rest comp? enc? topic? tid? (some r) tags? msg? sig?
        | none => .error .typeMismatch
    else if k = "tags" then
      match tags? with
      | some _ => .error .duplicateField
      | none =>
        match decodeTags v with
        | some tg => decodeNewsFields rest comp? enc? topic? tid? refs? (some tg) msg? sig?
        | none => .error .typeMismatch
    else if k = "msg" then
      match msg? with
      | some _ => .error .duplicateField
      | none =>
        match decodeBytesField v with
        | some m => decodeNewsFields rest comp? enc? topic? tid? refs? tags? (some m) sig?
        | none => .error .typeMismatch
    else if k = "sig" then
      match sig? with
      | some _ => .error .duplicateField
      | none =>
        match decodeOptBytes v with
        | some sg => decodeNewsFields rest comp? enc? topic? tid? refs? tags? msg? (some sg)
        | none => .error .typeMismatch
    else decodeNewsFields rest comp? enc? topic? tid? refs? tags? msg? sig?

/-- Deserialization of a `News` record from a CBOR value; models
`serde_cbor::from_slice::<News>`. -/
def News.decode : Cbor → Except DecodeError News
  | .map kvs => decodeNewsFields kvs none none none none none none none none
  | _ => .error .typeMismatch

/-- models `News::compression`. -/
def News.compression (n : News) : Bool := n.comp

/-- models `News::encryption`. -/
def News.encryption (n : News) : Bool := n.enc

/-- models `News::references`. -/
def News.referencesAcc (n : News) : Option String := n.references

/-- models `News::signature`. -/
def News.signature (n : News) : Option (List Nat) := n.sig

/-- models `News::thread_id`. -/
def News.thread_id (n : News) : Uuid := n.tid

/-- models `News::tags`. -/
def News.tagsAcc (n : News) : List String := n.tags

/-- Message accessor; models `News::msg` (src/news/mod.rs lines 234–241):
when the compression flag is set, decompress (the `expect` panic on a
decompression failure is modelled as `none`), then lossy UTF-8. -/
def News.msgAcc (n : News) : Option String :=
  if n.comp then
    (smaz_decompress n.msg).map (fun bs => String.mk (utf8DecodeLossy bs))
  else
    some (String.mk (utf8DecodeLossy n.msg))

/-- Topic accessor; models `News::topic` (src/news/mod.rs lines 242–251):
same shape as `News::msg` but over the topic bytes — note that the `expect`
panic is reachable here because `is_valid` never checks the topic bytes. -/
def News.topicAcc (n : News) : Option String :=
  if n.comp then
    (smaz_decompress n.topic).map (fun bs => String.mk (utf8DecodeLossy bs))
  else
    some (String.mk (utf8DecodeLossy n.topic))

/-- Validated news bundle wrapper; models the newtype `NewsBundle`
(src/news/mod.rs line 43). -/
structure NewsBundle where
  bundle : Bundle

/-- Role of an endpoint in a news bundle; models the `EIDType` enum
(src/news/mod.rs lines 84–87). -/
inductive EIDType where
  | Src
  | Dst
deriving DecidableEq, Repr

/-- Endpoint conventions of the news service; models
`NewsBundle::is_eid_valid` (src/news/mod.rs lines 89–125): the source must
use ipn service number 767 or dtn service name `sms`; the destination must
use ipn service number 119 or dtn service name `~news`. -/
def NewsBundle.is_eid_valid (eid : EndpointID) (service : EIDType) : Except NewsError Unit :=
  match eid with
  | .Ipn _ sn =>
    match service with
    | .Src => if sn = 767 then .ok () else .error .InvalidEndpoint
    | .Dst => if sn = 119 then .ok () else .error .InvalidEndpoint
  | .Dtn _ sn =>
    match service with
    | .Src => if sn = some "sms" then .ok () else .error .InvalidEndpoint
    | .Dst => if sn = some "~news" then .ok () else .error .InvalidEndpoint
  | .DtnNone => .error .InvalidEndpoint

/-- Validation; models `NewsBundle::is_valid` (src/news/mod.rs lines
126–141): role-specific address conventions, payload must exist and decode
as a `News`, and the message bytes (after decompression when the
compression flag is set) must be valid UTF-8.  Unlike the sms validator
there is no singleton check on the source, and the topic bytes are never
checked. -/
def NewsBundle.is_valid (nb : NewsBundle) : Except NewsError Unit :=
  match NewsBundle.is_eid_valid nb.bundle.primary.source .Src with
  | .error e => .error e
  | .ok _ =>
    match NewsBundle.is_eid_valid nb.bundle.primary.destination .Dst with
    | .error e => .error e
    | .ok _ =>
      match nb.bundle.payload with
      | none => .error .PayloadMissing
      | some payload =>
        match News.decode payload with
        | .error _ => .error .Cbor
        | .ok news =>
          if news.comp then
            match smaz_decompress news.msg with
            | none => .error .SmazDecompress
            | some bs =>
              match utf8DecodeStrict bs with
              | some _ => .ok ()
              | none => .error .NonUtf8
          else
            match utf8DecodeStrict news.msg with
            | some _ => .ok ()
            | none => .error .NonUtf8

/-- Wrapping; models `TryFrom<Bundle> for NewsBundle` (src/news/mod.rs
lines 45–56): every validation failure is collapsed into the single
`InvalidNewsBundle` error. -/
def NewsBundle.try_from (b : Bundle) : Except NewsError NewsBundle :=
  match NewsBundle.is_valid ⟨b⟩ with
  | .error _ => .error .InvalidNewsBundle
  | .ok _ => .ok ⟨b⟩

/-- Record accessor; models `NewsBundle::news` (src/news/mod.rs lines
169–173); the two `expect` panics are modelled as `none`. -/
def NewsBundle.newsAcc (nb : NewsBundle) : Option News :=
  match nb.bundle.payload with
  | none => none
  | some payload =>
    match News.decode payload with
    | .ok news => some news
    | .error _ => none

/-- models `NewsBundle::compression`. -/
def NewsBundle.compressionAcc (nb : NewsBundle) : Option Bool := nb.newsAcc.map News.compression

/-- models `NewsBundle::encryption`. -/
def NewsBundle.encryptionAcc (nb : NewsBundle) : Option Bool := nb.newsAcc.map News.encryption

/-- models `NewsBundle::signature`. -/
def NewsBundle.signatureAcc (nb : NewsBundle) : Option (Option (List Nat)) :=
  nb.newsAcc.map News.signature

/-- models `NewsBundle::msg` (panics propagate from `News::msg`). -/
def NewsBundle.msgAcc (nb : NewsBundle) : Option String := nb.newsAcc.bind News.msgAcc

/-- models `NewsBundle::topic` (panics propagate from `News::topic`). -/
def NewsBundle.topicAcc (nb : NewsBundle) : Option String := nb.newsAcc.bind News.topicAcc

/-- models `NewsBundle::tid`. -/
def NewsBundle.tidAcc (nb : NewsBundle) : Option Uuid := nb.newsAcc.map News.thread_id

/-- models `NewsBundle::references`. -/
def NewsBundle.referencesAcc (nb : NewsBundle) : Option (Option String) :=
  nb.newsAcc.map News.referencesAcc

/-- models `NewsBundle::tags`. -/
def NewsBundle.tagsAcc (nb : NewsBundle) : Option (List String) := nb.newsAcc.map News.tagsAcc

/-- models `NewsBundle::id`. -/
def NewsBundle.id (nb : NewsBundle) : String := nb.bundle.id

/-- Discussion-post builder state; models `NewsBuilder` (src/news/mod.rs
lines 260–269). -/
structure NewsBuilder where
  comp : Bool
  enc : Bool
  topic : Option String
  thread_id : Option Uuid
  references : Option String
  tags : List String
  msg : Option String
  sig : Option (List Nat)
deriving DecidableEq

/-- Fresh builder; models `NewsBuilder::new` (src/news/mod.rs lines
272–283): compression on, encryption off, no topic, no thread id, no
reference, empty tag list, no message, no signature. -/
def NewsBuilder.new : NewsBuilder :=
  { comp := true, enc := false, topic := none, thread_id := none, references := none,
    tags := [], msg := none, sig := none }

/-- Setter; models `NewsBuilder::compression`. -/
def NewsBuilder.setCompression (b : NewsBuilder) (comp : Bool) : NewsBuilder := { b with comp }

/-- Setter; models `NewsBuilder::encryption`. -/
def NewsBuilder.setEncryption (b : NewsBuilder) (enc : Bool) : NewsBuilder := { b with enc }

/-- Setter; models `NewsBuilder::message`. -/
def NewsBuilder.setMessage (b : NewsBuilder) (m : String) : NewsBuilder := { b with msg := some m }

/-- Setter; models `NewsBuilder::topic`. -/
def NewsBuilder.setTopic (b : NewsBuilder) (t : String) : NewsBuilder := { b with topic := some t }

/-- Setter; models `NewsBuilder::thread_id`. -/
def NewsBuilder.setThreadId (b : NewsBuilder) (tid : Uuid) : NewsBuilder :=
  { b with thread_id := some tid }

/-- Setter; models `NewsBuilder::references`. -/
def NewsBuilder.setReferences (b : NewsBuilder) (bid : String) : NewsBuilder :=
  { b with references := some bid }

/-- Setter; models `NewsBuilder::tag` (appends one tag). -/
def NewsBuilder.addTag (b : NewsBuilder) (t : String) : NewsBuilder :=
  { b with tags := b.tags ++ [t] }

/-- Setter; models `NewsBuilder::tags` (replaces the tag list). -/
def NewsBuilder.setTags (b : NewsBuilder) (ts : List String) : NewsBuilder := { b with tags := ts }

/-- Setter; models `NewsBuilder::signature`. -/
def NewsBuilder.setSignature (b : NewsBuilder) (sg : List Nat) : NewsBuilder :=
  { b with sig := some sg }

/-- Reply convenience; models `NewsBuilder::reply_to` (src/news/mod.rs
lines 284–290): copies the parent's bundle id into `references`, its thread
id, tags and (decompressed) topic into the builder.  The parent accessors
decode the parent bundle's payload and decompress its topic, so their
panics (modelled as `none`) propagate. -/
def NewsBuilder.reply_to (b : NewsBuilder) (parent : NewsBundle) : Option NewsBuilder :=
  match parent.newsAcc with
  | none => none
  | some n =>
    match News.topicAcc n with
    | none => none
    | some t =>
      some { b with references := some parent.id, thread_id := some n.tid,
                    tags := n.tags, topic := some t }

/-- Builder finalization; models `NewsBuilder::build` (src/news/mod.rs
lines 327–354): fails with `NoMessage` when no message was set, then with
`NoTopic` when no topic was set; otherwise compresses topic and message
when the compression flag is on, and uses the supplied fresh random bytes
for a version-4 uuid when no thread id was set (`Uuid::new_v4()`). -/
def NewsBuilder.build (b : NewsBuilder) (r : List Nat) : Except NewsError News :=
  match b.msg with
  | none => .error .NoMessage
  | some m =>
    match b.topic with
    | none => .error .NoTopic
    | some t =>
      .ok { comp := b.comp, enc := b.enc,
            topic := if b.comp then smaz_compress (utf8Encode t) else utf8Encode t,
            tid := match b.thread_id with
                   | some tid => tid
                   | none => uuidNewV4 r,
            references := b.references,
            tags := b.tags,
            msg := if b.comp then smaz_compress (utf8Encode m) else utf8Encode m,
            sig := b.sig }

/-! ## Concrete example values -/

/-- Executable success test for the sms endpoint convention
(`SMSBundle::is_eid_valid` as a boolean). -/
def smsEidOk (eid : EndpointID) : Bool := (SMSBundle.is_eid_valid eid).isOk

/-- Executable success test for the news source (producer) convention. -/
def newsSrcOk (eid : EndpointID) : Bool := (NewsBundle.is_eid_valid eid .Src).isOk

/-- Executable success test for the news destination (consumer)
convention. -/
def newsDstOk (eid : EndpointID) : Bool := (NewsBundle.is_eid_valid eid .Dst).isOk

/-- Uncompressed sms record with message `"hi"`. -/
def smsExample : SMS :=
  { comp := false, enc := false, msg := utf8Encode "hi", sig := none }

/-- Sms bundle whose destination uses the numeric sms service convention
(ipn service 767), identical to the source convention. -/
def smsBundle767 : Bundle :=
  { primary := { source := .Ipn 1 767, destination := .Ipn 2 767,
                 creation_timestamp := ⟨0, 0⟩, lifetime := 3600 },
    payload := some smsExample.encode }

/-- Sms bundle whose source is the dtn group endpoint `dtn://nodeg/~sms`
(service name `~sms`, so it passes the service-name check but is a
non-singleton endpoint). -/
def smsBundleTildeSrc : Bundle :=
  { primary := { source := .Dtn "nodeg" (some "~sms"), destination := .Ipn 2 767,
                 creation_timestamp := ⟨0, 0⟩, lifetime := 3600 },
    payload := some smsExample.encode }

/-- Sms bundle whose destination is the dtn group endpoint
`dtn://group/~sms` while the source is a singleton ipn endpoint. -/
def smsBundleTildeDst : Bundle :=
  { primary := { source := .Ipn 1 767, destination := .Dtn "group" (some "~sms"),
                 creation_timestamp := ⟨0, 0⟩, lifetime := 3600 },
    payload := some smsExample.encode }

/-- Uncompressed news record with topic `"weather"`, one tag, and message
`"it rained"`. -/
def newsExample : News :=
  { comp := false, enc := false, topic := utf8Encode "weather", tid := uuidNil,
    references := none, tags := ["forecast"], msg := utf8Encode "it rained", sig := none }

/-- Well-formed news bundle carrying `newsExample`. -/
def newsBundleExample : Bundle :=
  { primary := { source := .Dtn "node1" (some "sms"), destination := .Dtn "grp" (some "~news"),
                 creation_timestamp := ⟨0, 0⟩, lifetime := 3600 },
    payload := some newsExample.encode }

/-- Compressed news record whose topic bytes `[254]` are a truncated smaz
escape (they fail decompression) while the message bytes `[254, 104]` are a
valid verbatim escape for `"h"`. -/
def newsTopicPanicExample : News :=
  { comp := true, enc := false, topic := [254], tid := uuidNil,
    references := none, tags := [], msg := [254, 104], sig := none }

/-- News bundle carrying `newsTopicPanicExample`; its addresses and message
satisfy every check in `NewsBundle::is_valid`. -/
def newsBundleTopicPanic : Bundle :=
  { primary := { source := .Dtn "node1" (some "sms"), destination := .Dtn "grp" (some "~news"),
                 creation_timestamp := ⟨0, 0⟩, lifetime := 3600 },
    payload := some newsTopicPanicExample.encode }

theorem char_toNat_valid (c : Char) :
    c.toNat < 0xD800 ∨ (0xDFFF < c.toNat ∧ c.toNat < 0x110000) := c.valid

theorem charUtf8_length_pos (c : Char) : 1 ≤ (charUtf8 c).length := by
  unfold charUtf8
  split_ifs <;> simp

theorem utf8ParseChar_encode (c : Char) (rest : List Nat) :
    utf8ParseChar (charUtf8 c ++ rest) = some (c, rest) := by
  have hv := char_toNat_valid c
  have hofNat := Char.ofNat_toNat c
  by_cases h1 : c.toNat < 0x80
  · have e1 : charUtf8 c = [c.toNat] := by unfold charUtf8; rw [if_pos h1]
    rw [e1]
    show utf8ParseChar (c.toNat :: rest) = _
    simp only [utf8ParseChar]
    rw [if_pos h1, hofNat]
  · by_cases h2 : c.toNat < 0x800
    · have e1 : charUtf8 c = [0xC0 + c.toNat / 64, 0x80 + c.toNat % 64] := by
        unfold charUtf8; rw [if_neg h1, if_pos h2]
      rw [e1]
      show utf8ParseChar (_ :: _ :: rest) = _
      simp only [utf8ParseChar]
      rw [if_neg (by omega), if_neg (by omega), if_pos (by omega)]
      simp only [utf8Parse2]
      rw [if_pos (by omega)]
      have harg : (0xC0 + c.toNat / 64 - 0xC0) * 64 + (0x80 + c.toNat % 64 - 0x80) = c.toNat := by
        omega
      rw [harg, hofNat]
    · by_cases h3 : c.toNat < 0x10000
      · have e1 : charUtf8 c =
            [0xE0 + c.toNat / 4096, 0x80 + c.toNat / 64 % 64, 0x80 + c.toNat % 64] := by
          unfold charUtf8; rw [if_neg h1, if_neg h2, if_pos h3]
        rw [e1]
        show utf8ParseChar (_ :: _ :: _ :: rest) = _
        simp only [utf8ParseChar]
        rw [if_neg (by omega), if_neg (by omega), if_neg (by omega), if_pos (by omega)]
        simp only [utf8Parse3]
        rw [if_pos (by omega)]
        have harg : (0xE0 + c.toNat / 4096 - 0xE0) * 4096 + (0x80 + c.toNat / 64 % 64 - 0x80) * 64
            + (0x80 + c.toNat % 64 - 0x80) = c.toNat := by omega
        rw [harg, hofNat]
      · have h4 : c.toNat < 0x110000 := by omega
        have e1 : charUtf8 c = [0xF0 + c.toNat / 262144, 0x80 + c.toNat / 4096 % 64,
            0x80 + c.toNat / 64 % 64, 0x80 + c.toNat % 64] := by
          unfold charUtf8; rw [if_neg h1, if_neg h2, if_neg h3]
        rw [e1]
        show utf8ParseChar (_ :: _ :: _ :: _ :: rest) = _
        simp only [utf8ParseChar]
        rw [if_neg (by omega), if_neg (by omega), if_neg (by omega), if_neg (by omega),
          if_pos (by omega)]
        simp only [utf8Parse4]
        rw [if_pos (by omega)]
        have harg : (0xF0 + c.toNat / 262144 - 0xF0) * 262144
            + (0x80 + c.toNat / 4096 % 64 - 0x80) * 4096
            + (0x80 + c.toNat / 64 % 64 - 0x80) * 64 + (0x80 + c.toNat % 64 - 0x80) = c.toNat := by
          omega
        rw [harg, hofNat]

theorem utf8DecodeAux_encode (cs : List Char) :
    ∀ fuel, (utf8EncodeChars cs).length ≤ fuel →
      utf8DecodeAux fuel (utf8EncodeChars cs) = some cs := by
  induction cs with
  | nil => intro fuel _; cases fuel <;> rfl
  | cons c cs ih =>
    intro fuel hfuel
    have hlen := charUtf8_length_pos c
    have henc : utf8EncodeChars (c :: cs) = charUtf8 c ++ utf8EncodeChars cs := rfl
    obtain ⟨d, ds, hd⟩ : ∃ d ds, charUtf8 c = d :: ds := by
      cases h : charUtf8 c with
      | nil => rw [h] at hlen; simp at hlen
      | cons d ds => exact ⟨d, ds, rfl⟩
    rw [henc] at hfuel ⊢
    rw [hd] at hfuel ⊢
    match fuel with
    | 0 => simp at hfuel
    | fuel + 1 =>
      have hparse : utf8ParseChar (d :: (ds ++ utf8EncodeChars cs)) =
          some (c, utf8EncodeChars cs) := by
        have := utf8ParseChar_encode c (utf8EncodeChars cs)
        rw [hd] at this
        simpa using this
      show utf8DecodeAux (fuel + 1) (d :: (ds ++ utf8EncodeChars cs)) = _
      unfold utf8DecodeAux
      rw [hparse]
      have hlen2 : (utf8EncodeChars cs).length ≤ fuel := by
        simp at hfuel
        omega
      show (utf8DecodeAux fuel (utf8EncodeChars cs)).map (c :: ·) = _
      rw [ih fuel hlen2]
      rfl

theorem utf8LossyAux_encode (cs : List Char) :
    ∀ fuel, (utf8EncodeChars cs).length ≤ fuel →
      utf8LossyAux fuel (utf8EncodeChars cs) = cs := by
  induction cs with
  | nil => intro fuel _; cases fuel <;> rfl
  | cons c cs ih =>
    intro fuel hfuel
    have hlen := charUtf8_length_pos c
    have henc : utf8EncodeChars (c :: cs) = charUtf8 c ++ utf8EncodeChars cs := rfl
    obtain ⟨d, ds, hd⟩ : ∃ d ds, charUtf8 c = d :: ds := by
      cases h : charUtf8 c with
      | nil => rw [h] at hlen; simp at hlen
      | cons d ds => exact ⟨d, ds, rfl⟩
    rw [henc] at hfuel ⊢
    rw [hd] at hfuel ⊢
    match fuel with
    | 0 => simp at hfuel
    | fuel + 1 =>
      have hparse : utf8ParseChar (d :: (ds ++ utf8EncodeChars cs)) =
          some (c, utf8EncodeChars cs) := by
        have := utf8ParseChar_encode c (utf8EncodeChars cs)
        rw [hd] at this
        simpa using this
      show utf8LossyAux (fuel + 1) (d :: (ds ++ utf8EncodeChars cs)) = _
      unfold utf8LossyAux
      rw [hparse]
      have hlen2 : (utf8EncodeChars cs).length ≤ fuel := by
        simp at hfuel
        omega
      show c :: utf8LossyAux fuel (utf8EncodeChars cs) = _
      rw [ih fuel hlen2]

theorem utf8DecodeStrict_encode (cs : List Char) :
    utf8DecodeStrict (utf8EncodeChars cs) = some cs :=
  utf8DecodeAux_encode cs _ le_rfl

theorem utf8DecodeLossy_encode (cs : List Char) :
    utf8DecodeLossy (utf8EncodeChars cs) = cs :=
  utf8LossyAux_encode cs _ le_rfl

theorem utf8DecodeStrict_utf8Encode (s : String) :
    utf8DecodeStrict (utf8Encode s) = some s.data :=
  utf8DecodeStrict_encode s.data

theorem utf8DecodeLossy_utf8Encode (s : String) :
    String.mk (utf8DecodeLossy (utf8Encode s)) = s := by
  rw [utf8Encode, utf8DecodeLossy_encode]

set_option maxRecDepth 4000 in
theorem smazCodebook_length : smazCodebook.length = 254 := by
  rw [smazCodebook, List.length_map]
  rfl

theorem smazLookup_sound :
    ∀ (cb : List (List Nat)) (i s2 : _) (c : Nat), smazLookup cb i s2 = some c →
      i ≤ c ∧ c - i < cb.length ∧ cb.getD (c - i) [] = s2 := by
  intro cb
  induction cb with
  | nil => intro i s2 c h; simp [smazLookup] at h
  | cons e es ih =>
    intro i s2 c h
    simp only [smazLookup] at h
    by_cases he : e = s2
    · rw [if_pos he] at h
      have hic : i = c := by injection h
      subst hic
      simp [he]
    · rw [if_neg he] at h
      obtain ⟨h1, h2, h3⟩ := ih (i + 1) s2 c h
      refine ⟨by omega, by simp only [List.length_cons]; omega, ?_⟩
      have hstep : c - i = (c - (i + 1)) + 1 := by omega
      rw [hstep]
      simpa using h3

theorem smazLookup_codebook {s2 : List Nat} {c : Nat}
    (h : smazLookup smazCodebook 0 s2 = some c) :
    c < 254 ∧ smazCodebook.getD c [] = s2 := by
  obtain ⟨_, h2, h3⟩ := smazLookup_sound smazCodebook 0 s2 c h
  rw [smazCodebook_length] at h2
  simp only [Nat.sub_zero] at h2 h3
  exact ⟨h2, h3⟩

theorem smazMatchTry_sound (input : List Nat) :
    ∀ l c len, l ≤ input.length → smazMatchTry input l = some (c, len) →
      1 ≤ len ∧ len ≤ input.length ∧ c < 254 ∧ smazCodebook.getD c [] = input.take len := by
  intro l
  induction l with
  | zero => intro c len _ h; simp [smazMatchTry] at h
  | succ l ih =>
    intro c len hl h
    simp only [smazMatchTry] at h
    cases hx : smazLookup smazCodebook 0 (input.take (l + 1)) with
    | some c2 =>
      rw [hx] at h
      simp only [Option.some.injEq, Prod.mk.injEq] at h
      obtain ⟨rfl, rfl⟩ := h
      obtain ⟨hc, he⟩ := smazLookup_codebook hx
      exact ⟨by omega, by omega, hc, he⟩
    | none =>
      rw [hx] at h
      exact ih c len (by omega) h

theorem smazMatch_sound {input : List Nat} {c len : Nat}
    (h : smazMatch input = some (c, len)) :
    1 ≤ len ∧ len ≤ input.length ∧ c < 254 ∧ smazCodebook.getD c [] = input.take len :=
  smazMatchTry_sound input (min 7 input.length) c len (by omega) h

theorem smazDecompressAux_fuel :
    ∀ (f1 : Nat) (input : List Nat) (f2 : Nat), input.length ≤ f1 → input.length ≤ f2 →
      smazDecompressAux f1 input = smazDecompressAux f2 input := by
  intro f1
  induction f1 with
  | zero =>
    intro input f2 h1 _
    have : input = [] := List.eq_nil_of_length_eq_zero (by omega)
    subst this
    cases f2 <;> rfl
  | succ f1 ih =>
    intro input f2 h1 h2
    match input with
    | [] => cases f2 <;> rfl
    | b :: rest =>
      match f2 with
      | 0 => simp at h2
      | f2 + 1 =>
        show smazDecompressAux (f1 + 1) (b :: rest) = smazDecompressAux (f2 + 1) (b :: rest)
        unfold smazDecompressAux
        by_cases hb : b = 254
        · rw [if_pos hb, if_pos hb]
          match rest with
          | [] => rfl
          | v :: rest1 =>
            show (smazDecompressAux f1 rest1).map (v :: ·) = (smazDecompressAux f2 rest1).map (v :: ·)
            have : rest1.length ≤ f1 := by simp at h1; omega
            have h2b : rest1.length ≤ f2 := by simp at h2; omega
            rw [ih rest1 f2 this h2b]
        · rw [if_neg hb, if_neg hb]
          by_cases hb2 : b = 255
          · rw [if_pos hb2, if_pos hb2]
            match rest with
            | [] => rfl
            | l :: rest1 =>
              show (if l + 1 ≤ rest1.length then
                  (smazDecompressAux f1 (rest1.drop (l + 1))).map (rest1.take (l + 1) ++ ·)
                else none) =
                (if l + 1 ≤ rest1.length then
                  (smazDecompressAux f2 (rest1.drop (l + 1))).map (rest1.take (l + 1) ++ ·)
                else none)
              by_cases hl : l + 1 ≤ rest1.length
              · rw [if_pos hl, if_pos hl]
                have hd : (rest1.drop (l + 1)).length ≤ f1 := by
                  simp at h1 ⊢; omega
                have hd2 : (rest1.drop (l + 1)).length ≤ f2 := by
                  simp at h2 ⊢; omega
                rw [ih (rest1.drop (l + 1)) f2 hd hd2]
              · rw [if_neg hl, if_neg hl]
          · rw [if_neg hb2, if_neg hb2]
            by_cases hb3 : b < 254
            · rw [if_pos hb3, if_pos hb3]
              have : rest.length ≤ f1 := by simp at h1; omega
              have h2b : rest.length ≤ f2 := by simp at h2; omega
              rw [ih rest f2 this h2b]
            · rw [if_neg hb3, if_neg hb3]

theorem smaz_decompress_code (c : Nat) (hc : c < 254) (rest : List Nat) :
    smaz_decompress (c :: rest) = (smaz_decompress rest).map (smazCodebook.getD c [] ++ ·) := by
  show smazDecompressAux (rest.length + 1) (c :: rest) = _
  unfold smazDecompressAux
  rw [if_neg (by omega), if_neg (by omega), if_pos hc]
  rfl

theorem smaz_decompress_single (v : Nat) (rest : List Nat) :
    smaz_decompress (254 :: v :: rest) = (smaz_decompress rest).map (v :: ·) := by
  show smazDecompressAux ((v :: rest).length + 1) (254 :: v :: rest) = _
  unfold smazDecompressAux
  rw [if_pos rfl]
  show (smazDecompressAux (v :: rest).length rest).map (v :: ·) = _
  rw [smazDecompressAux_fuel (v :: rest).length rest rest.length (by simp) le_rfl]
  rfl

theorem smaz_decompress_run (l : Nat) (rest : List Nat) (h : l + 1 ≤ rest.length) :
    smaz_decompress (255 :: l :: rest) =
      (smaz_decompress (rest.drop (l + 1))).map (rest.take (l + 1) ++ ·) := by
  show smazDecompressAux ((l :: rest).length + 1) (255 :: l :: rest) = _
  unfold smazDecompressAux
  rw [if_neg (by omega), if_pos rfl]
  show (if l + 1 ≤ rest.length then
      (smazDecompressAux (l :: rest).length (rest.drop (l + 1))).map (rest.take (l + 1) ++ ·)
    else none) = _
  rw [if_pos h]
  rw [smazDecompressAux_fuel (l :: rest).length (rest.drop (l + 1)) (rest.drop (l + 1)).length
    (by simp; omega) le_rfl]
  rfl

theorem smaz_decompress_flush (verb rest : List Nat) :
    smaz_decompress (smazFlushVerbatim verb ++ rest) = (smaz_decompress rest).map (verb ++ ·) := by
  match verb with
  | [] =>
    show smaz_decompress ([] ++ rest) = _
    cases h : smaz_decompress rest <;> simp [h]
  | [v] =>
    show smaz_decompress (254 :: v :: rest) = _
    rw [smaz_decompress_single]
    cases h : smaz_decompress rest <;> simp
  | v :: w :: vs =>
    show smaz_decompress (255 :: (vs.length + 1) :: (v :: w :: vs ++ rest)) = _
    rw [smaz_decompress_run (vs.length + 1) (v :: w :: vs ++ rest) (by simp)]
    have htake : (v :: w :: vs ++ rest).take (vs.length + 1 + 1) = v :: w :: vs := by
      have h2 := List.take_left (v :: w :: vs) rest
      simp only [List.length_cons] at h2
      exact h2
    have hdrop : (v :: w :: vs ++ rest).drop (vs.length + 1 + 1) = rest := by
      have h2 := List.drop_left (v :: w :: vs) rest
      simp only [List.length_cons] at h2
      exact h2
    rw [htake, hdrop]

theorem smaz_roundtrip_aux :
    ∀ (fuel : Nat) (input verb : List Nat), input.length ≤ fuel →
      smaz_decompress (smazCompressAux fuel input verb) = some (verb ++ input) := by
  intro fuel
  induction fuel with
  | zero =>
    intro input verb h
    have : input = [] := List.eq_nil_of_length_eq_zero (by omega)
    subst this
    show smaz_decompress (smazFlushVerbatim verb) = some (verb ++ [])
    have := smaz_decompress_flush verb []
    rw [List.append_nil] at this
    rw [this]
    simp [smaz_decompress, smazDecompressAux]
  | succ fuel ih =>
    intro input verb h
    match input with
    | [] =>
      show smaz_decompress (smazFlushVerbatim verb) = some (verb ++ [])
      have := smaz_decompress_flush verb []
      rw [List.append_nil] at this
      rw [this]
      simp [smaz_decompress, smazDecompressAux]
    | b :: rest =>
      show smaz_decompress (smazCompressAux (fuel + 1) (b :: rest) verb) = _
      unfold smazCompressAux
      cases hm : smazMatch (b :: rest) with
      | some cl =>
        obtain ⟨c, len⟩ := cl
        obtain ⟨h1, h2, hc, hentry⟩ := smazMatch_sound hm
        rw [smaz_decompress_flush, smaz_decompress_code c hc]
        have h2b := h2
        simp only [List.length_cons] at h2b
        have hdroplen : ((b :: rest).drop len).length ≤ fuel := by
          simp only [List.length_drop, List.length_cons]
          simp only [List.length_cons] at h
          omega
        rw [ih ((b :: rest).drop len) [] hdroplen]
        rw [hentry]
        simp [List.take_append_drop]
      | none =>
        by_cases hv : verb.length + 1 = 256
        · rw [if_pos hv]
          rw [smaz_decompress_flush]
          have hrest : rest.length ≤ fuel := by simp at h; omega
          rw [ih rest [] hrest]
          simp
        · rw [if_neg hv]
          have hrest : rest.length ≤ fuel := by simp at h; omega
          rw [ih rest (verb ++ [b]) hrest]
          simp

theorem smaz_decompress_compress (bs : List Nat) :
    smaz_decompress (smaz_compress bs) = some bs := by
  have := smaz_roundtrip_aux bs.length bs [] le_rfl
  simpa [smaz_compress] using this

theorem uuidPad_length (r : List Nat) : (uuidPad r).length = 16 := by
  simp [uuidPad]

theorem NodeTypeFlags.from_bits_val (f : NodeTypeFlags) :
    NodeTypeFlags.from_bits f.val = some f := by
  obtain ⟨n, h⟩ := f
  simp [NodeTypeFlags.from_bits, h]

theorem location_decode_encode (loc : Location) :
    Location.decode (.arr loc.encode) = .ok loc := by
  cases loc <;> rfl

theorem locationBlockData_decode_encode (d : LocationBlockData) :
    LocationBlockData.decode (.arr d.encode) = .ok d := by
  cases d with
  | Position info coords =>
    obtain ⟨bits, hb1, hb2⟩ := info
    simp [LocationBlockData.decode, LocationBlockData.encode, LocationBlockData.decodeSeq,
      LocationBlockType.tag, LocationBlockType.try_from, readU8, readU16,
      location_decode_encode, NodeTypeFlags.from_bits, hb1, hb2]
  | FenceEllipse coords r1 r2 =>
    simp [LocationBlockData.decode, LocationBlockData.encode, LocationBlockData.decodeSeq,
      LocationBlockType.tag, LocationBlockType.try_from, readU8, readU64,
      location_decode_encode]
  | FenceRect topleft bottomright =>
    simp [LocationBlockData.decode, LocationBlockData.encode, LocationBlockData.decodeSeq,
      LocationBlockType.tag, LocationBlockType.try_from, readU8,
      location_decode_encode]
  | Trace info node coords =>
    obtain ⟨bits, hb1, hb2⟩ := info
    simp [LocationBlockData.decode, LocationBlockData.encode, LocationBlockData.decodeSeq,
      LocationBlockType.tag, LocationBlockType.try_from, readU8, readU16, readEid,
      location_decode_encode, NodeTypeFlags.from_bits, hb1, hb2]

theorem decodeByteSeq_map (bs : List Nat) (h : ∀ x ∈ bs, x < 256) :
    decodeByteSeq (bs.map .nat) = some bs := by
  induction bs with
  | nil => rfl
  | cons b bs ih =>
    have hb : b < 256 := h b (by simp)
    have ht : ∀ x ∈ bs, x < 256 := fun x hx => h x (by simp [hx])
    simp [decodeByteSeq, hb, ih ht]

theorem sms_decode_encode (s : SMS)
    (hsig : ∀ bs, s.sig = some bs → ∀ x ∈ bs, x < 256) :
    SMS.decode s.encode = .ok s := by
  obtain ⟨c, e, m, sig⟩ := s
  cases sig with
  | none =>
    simp [SMS.decode, SMS.encode, decodeSMSFields, decodeBool, decodeBytesField, decodeOptBytes]
  | some bs =>
    have hb := hsig bs rfl
    simp [SMS.decode, SMS.encode, decodeSMSFields, decodeBool, decodeBytesField, decodeOptBytes,
      decodeByteSeq_map bs hb]

theorem decodeTextSeq_map (tags : List String) :
    decodeTextSeq (tags.map .text) = some tags := by
  induction tags with
  | nil => rfl
  | cons t ts ih => simp [decodeTextSeq, ih]

theorem news_decode_encode (n : News)
    (hsig : ∀ bs, n.sig = some bs → ∀ x ∈ bs, x < 256) :
    News.decode n.encode = .ok n := by
  obtain ⟨c, e, tp, td, refs, tg, m, sig⟩ := n
  have htid : decodeUuid (.bytes td.val) = some td := by
    simp [decodeUuid, td.property]
  cases sig with
  | none =>
    cases refs <;>
      simp [News.decode, News.encode, decodeNewsFields, decodeBool, decodeBytesField,
        decodeOptBytes, decodeOptText, decodeTags, decodeTextSeq_map, htid]
  | some bs =>
    have hb := hsig bs rfl
    cases refs <;>
      simp [News.decode, News.encode, decodeNewsFields, decodeBool, decodeBytesField,
        decodeOptBytes, decodeOptText, decodeTags, decodeTextSeq_map, htid,
        decodeByteSeq_map bs hb]

/-! ## Helper lemmas and claim theorems -/

theorem uuidNewV4_version (r : List Nat) : uuidVersion (uuidNewV4 r) = 4 := by
  have h6 : ((uuidPad r).take 6).length = 6 := by simp [uuidPad_length]
  unfold uuidVersion uuidNewV4
  simp only [List.getD_eq_getElem?_getD]
  rw [List.getElem?_append_right (by omega), h6]
  simp
  omega

theorem uuidNewV4_ne_nil (r : List Nat) : uuidNewV4 r ≠ uuidNil := by
  intro h
  have hval := congrArg (fun u : Uuid => u.val.getD 6 0) h
  have h6 : ((uuidPad r).take 6).length = 6 := by simp [uuidPad_length]
  simp only [uuidNewV4, uuidNil, List.getD_eq_getElem?_getD] at hval
  rw [List.getElem?_append_right (by omega), h6] at hval
  simp [List.getElem?_replicate] at hval

/-- Claim C1: decoding the encoding of any of the four `Location` variants
and any of the four `LocationBlockData` variants yields exactly the
original value; `LatLon` and `XY` carry distinct discriminants, so two
values with the same coordinate pair have different encodings and each
decodes back to its own variant. -/
theorem claim1_location_roundtrip :
    (∀ loc : Location, Location.decode (.arr loc.encode) = .ok loc) ∧
    (∀ d : LocationBlockData, LocationBlockData.decode (.arr d.encode) = .ok d) ∧
    (∀ a b : F32, Location.encode (.LatLon a b) ≠ Location.encode (.XY a b) ∧
      Location.decode (.arr (Location.encode (.LatLon a b))) = .ok (.LatLon a b) ∧
      Location.decode (.arr (Location.encode (.XY a b))) = .ok (.XY a b)) := by
  refine ⟨location_decode_encode, locationBlockData_decode_encode, fun a b =>
    ⟨?_, location_decode_encode _, location_decode_encode _⟩⟩
  intro h
  simp [Location.encode, LocationType.tag] at h

/-- Claim C2: decompressing the compression of any byte sequence (in
particular any UTF-8 text) returns it unchanged; and a short-message or
discussion-post record built with compression on and message text `t`
round-trips through its record codec with its message accessor returning
exactly `t`. -/
theorem claim2_compression_roundtrip :
    (∀ bs : List Nat, smaz_decompress (smaz_compress bs) = some bs) ∧
    (∀ t : String, ∃ s : SMS, (SmsBuilder.new.setMessage t).build = .ok s ∧
      SMS.decode s.encode = .ok s ∧ SMS.msgAcc s = some t) ∧
    (∀ t topicText : String, ∀ r : List Nat, ∃ n : News,
      ((NewsBuilder.new.setMessage t).setTopic topicText).build r = .ok n ∧
      News.decode n.encode = .ok n ∧ News.msgAcc n = some t) := by
  refine ⟨smaz_decompress_compress, fun t =>
      ⟨{ comp := true, enc := false, msg := smaz_compress (utf8Encode t), sig := none },
        rfl, ?_, ?_⟩,
    fun t topicText r =>
      ⟨{ comp := true, enc := false, topic := smaz_compress (utf8Encode topicText),
         tid := uuidNewV4 r, references := none, tags := [],
         msg := smaz_compress (utf8Encode t), sig := none },
        rfl, ?_, ?_⟩⟩
  · exact sms_decode_encode _ (fun bs hbs => by simp at hbs)
  · simp [SMS.msgAcc, smaz_decompress_compress, utf8DecodeLossy_utf8Encode]
  · exact news_decode_encode _ (fun bs hbs => by simp at hbs)
  · simp [News.msgAcc, smaz_decompress_compress, utf8DecodeLossy_utf8Encode]

/-- Claim C5: a short-message builder without message text fails `build`
with the `NoMessage` error (the `MissingField` error naming the message
field) and produces no record; a discussion-post builder with a message but
no topic fails `build` with the `NoTopic` error naming the topic field. -/
theorem claim5_builder_missing_field :
    (∀ b : SmsBuilder, b.msg = none → b.build = .error .NoMessage) ∧
    (∀ (b : NewsBuilder) (m : String) (r : List Nat), b.msg = some m → b.topic = none →
      b.build r = .error .NoTopic) := by
  constructor
  · intro b h
    simp [SmsBuilder.build, h]
  · intro b m r hm ht
    simp [NewsBuilder.build, hm, ht]

theorem claim5_witness :
    SmsBuilder.new.build = .error .NoMessage ∧
    (NewsBuilder.new.setMessage "hello").build [] = .error .NoTopic :=
  ⟨claim5_builder_missing_field.1 SmsBuilder.new rfl,
   claim5_builder_missing_field.2 (NewsBuilder.new.setMessage "hello") "hello" [] rfl rfl⟩

/-- Claim C6: for every 16-bit node-type value `n`, decoding a Position or
Trace record never fails because of unrecognized bits in the node-type
bitmask; in the decoded flag set every unrecognized bit is zero, and a
value carrying only recognized bits decodes to exactly those bits. -/
theorem claim6_nodetype_bits (n : Nat) (hn : n < 65536) (loc : Location) (node : EndpointID) :
    (∃ f : NodeTypeFlags,
      LocationBlockData.decodeSeq [.nat 1, .nat n, .arr loc.encode] = .ok (.Position f loc) ∧
      f.val &&& 0xFFE0 = 0 ∧ (n &&& 0xFFE0 = 0 → f.val = n)) ∧
    (∃ f : NodeTypeFlags,
      LocationBlockData.decodeSeq [.nat 4, .nat n, .eid node, .arr loc.encode] =
        .ok (.Trace f node loc) ∧
      f.val &&& 0xFFE0 = 0 ∧ (n &&& 0xFFE0 = 0 → f.val = n)) := by
  have hinv : ((NodeTypeFlags.from_bits n).getD NodeTypeFlags.defaultFlags).val &&& 0xFFE0 = 0 := by
    cases hfb : NodeTypeFlags.from_bits n with
    | none => simp [NodeTypeFlags.defaultFlags]
    | some f => simpa using f.2.1
  have hpres : n &&& 0xFFE0 = 0 →
      ((NodeTypeFlags.from_bits n).getD NodeTypeFlags.defaultFlags).val = n := by
    intro hz
    have : NodeTypeFlags.from_bits n = some ⟨n, hz, hn⟩ := by
      simp [NodeTypeFlags.from_bits, hz, hn]
    simp [this]
  constructor
  · refine ⟨(NodeTypeFlags.from_bits n).getD NodeTypeFlags.defaultFlags, ?_, hinv, hpres⟩
    simp [LocationBlockData.decodeSeq, readU8, readU16, hn, LocationBlockType.try_from,
      location_decode_encode]
  · refine ⟨(NodeTypeFlags.from_bits n).getD NodeTypeFlags.defaultFlags, ?_, hinv, hpres⟩
    simp [LocationBlockData.decodeSeq, readU8, readU16, readEid, hn, LocationBlockType.try_from,
      location_decode_encode]

theorem claim6_witness :
    (∃ f : NodeTypeFlags,
      LocationBlockData.decodeSeq [.nat 1, .nat 37, .arr (Location.Human "x").encode] =
        .ok (.Position f (.Human "x")) ∧
      f.val &&& 0xFFE0 = 0 ∧ (37 &&& 0xFFE0 = 0 → f.val = 37)) ∧
    (∃ f : NodeTypeFlags,
      LocationBlockData.decodeSeq [.nat 4, .nat 37, .eid .DtnNone,
          .arr (Location.Human "x").encode] =
        .ok (.Trace f .DtnNone (.Human "x")) ∧
      f.val &&& 0xFFE0 = 0 ∧ (37 &&& 0xFFE0 = 0 → f.val = 37)) :=
  claim6_nodetype_bits 37 (by decide) (.Human "x") .DtnNone

/-- Claim C7: a fresh short-message builder and a fresh discussion-post
builder default compression to on and the encryption flag to off; the
discussion-post builder defaults its tag list to empty; and a build with no
thread identifier set stores the freshly generated random uuid, which is a
non-nil version-4 UUID. -/
theorem claim7_builder_defaults :
    SmsBuilder.new.comp = true ∧ SmsBuilder.new.enc = false ∧
    NewsBuilder.new.comp = true ∧ NewsBuilder.new.enc = false ∧
    NewsBuilder.new.tags = [] ∧
    (∀ (b : NewsBuilder) (m t : String) (r : List Nat), b.thread_id = none →
      b.msg = some m → b.topic = some t →
      ∃ R : News, b.build r = .ok R ∧ R.tid = uuidNewV4 r) ∧
    (∀ r : List Nat, uuidVersion (uuidNewV4 r) = 4 ∧ uuidNewV4 r ≠ uuidNil) := by
  refine ⟨rfl, rfl, rfl, rfl, rfl, ?_, fun r => ⟨uuidNewV4_version r, uuidNewV4_ne_nil r⟩⟩
  intro b m t r htid hm ht
  refine ⟨{ comp := b.comp, enc := b.enc,
            topic := if b.comp then smaz_compress (utf8Encode t) else utf8Encode t,
            tid := uuidNewV4 r, references := b.references, tags := b.tags,
            msg := if b.comp then smaz_compress (utf8Encode m) else utf8Encode m,
            sig := b.sig }, ?_, rfl⟩
  simp [NewsBuilder.build, hm, ht, htid]

theorem claim7_witness :
    (∃ R : News,
      ((NewsBuilder.new.setMessage "m").setTopic "t").build (List.replicate 16 9) = .ok R ∧
      R.tid = uuidNewV4 (List.replicate 16 9)) ∧
    uuidVersion (uuidNewV4 (List.replicate 16 9)) = 4 ∧
    uuidNewV4 (List.replicate 16 9) ≠ uuidNil :=
  ⟨claim7_builder_defaults.2.2.2.2.2.1 ((NewsBuilder.new.setMessage "m").setTopic "t")
      "m" "t" (List.replicate 16 9) rfl rfl rfl,
   claim7_builder_defaults.2.2.2.2.2.2 (List.replicate 16 9)⟩

/-- Claim C8: a leading discriminant outside the known tags 1–4 makes
decoding fail with the unknown-variant error for both the `Location` and
the `LocationBlockData` codec; and a known discriminant with any missing
field — any sequence that is cut off at any point after the discriminant
but before the variant's last field — fails with a truncation error
carrying the index of the first missing element, rather than returning a
value.  Quantifying over every proper nonempty prefix of every encoded
value covers every `invalid_length` site of both visitors: Position
missing its bits or its coordinates, FenceEllipse missing its location,
r1 or r2, FenceRect missing either corner, Trace missing its bits, node
or coordinates, and each single-field `Location` variant missing its
payload. -/
theorem claim8_decode_errors :
    (∀ (n : Nat) (rest : List Cbor), n < 256 → (n = 0 ∨ 4 < n) →
      Location.decodeSeq (.nat n :: rest) = .error (.unknownVariant n) ∧
      LocationBlockData.decodeSeq (.nat n :: rest) = .error (.unknownVariant n)) ∧
    (∀ (loc : Location) (k : Nat), 1 ≤ k → k < loc.encode.length →
      Location.decodeSeq (loc.encode.take k) = .error (.truncated k)) ∧
    (∀ (d : LocationBlockData) (k : Nat), 1 ≤ k → k < d.encode.length →
      LocationBlockData.decodeSeq (d.encode.take k) = .error (.truncated k)) := by
  refine ⟨?_, ?_, ?_⟩
  · intro n rest h1 h2
    have ht : LocationType.try_from n = none := by
      unfold LocationType.try_from
      split_ifs <;> first | rfl | (exfalso; omega)
    have ht2 : LocationBlockType.try_from n = none := by
      unfold LocationBlockType.try_from
      split_ifs <;> first | rfl | (exfalso; omega)
    constructor
    · simp [Location.decodeSeq, readU8, h1, ht]
    · simp [LocationBlockData.decodeSeq, readU8, h1, ht2]
  · intro loc k h1 h2
    cases loc <;>
      (simp only [Location.encode, List.length_cons, List.length_nil] at h2;
       interval_cases k; rfl)
  · intro d k h1 h2
    cases d with
    | Position info coords =>
      obtain ⟨bits, hb1, hb2⟩ := info
      simp only [LocationBlockData.encode, List.length_cons, List.length_nil] at h2
      interval_cases k
      · rfl
      · simp [LocationBlockData.decodeSeq, LocationBlockData.encode, LocationBlockType.tag,
          readU8, readU16, LocationBlockType.try_from, hb2]
    | FenceEllipse coords r1 r2 =>
      simp only [LocationBlockData.encode, List.length_cons, List.length_nil] at h2
      interval_cases k
      · rfl
      · simp [LocationBlockData.decodeSeq, LocationBlockData.encode, LocationBlockType.tag,
          readU8, LocationBlockType.try_from, location_decode_encode]
      · simp [LocationBlockData.decodeSeq, LocationBlockData.encode, LocationBlockType.tag,
          readU8, readU64, LocationBlockType.try_from, location_decode_encode]
    | FenceRect topleft bottomright =>
      simp only [LocationBlockData.encode, List.length_cons, List.length_nil] at h2
      interval_cases k
      · rfl
      · simp [LocationBlockData.decodeSeq, LocationBlockData.encode, LocationBlockType.tag,
          readU8, LocationBlockType.try_from, location_decode_encode]
    | Trace info node coords =>
      obtain ⟨bits, hb1, hb2⟩ := info
      simp only [LocationBlockData.encode, List.length_cons, List.length_nil] at h2
      interval_cases k
      · rfl
      · simp [LocationBlockData.decodeSeq, LocationBlockData.encode, LocationBlockType.tag,
          readU8, readU16, LocationBlockType.try_from, hb2]
      · simp [LocationBlockData.decodeSeq, LocationBlockData.encode, LocationBlockType.tag,
          readU8, readU16, readEid, LocationBlockType.try_from, hb2]

theorem claim8_witness :
    (Location.decodeSeq [.nat 9] = .error (.unknownVariant 9) ∧
      LocationBlockData.decodeSeq [.nat 9] = .error (.unknownVariant 9)) ∧
    Location.decodeSeq ((Location.Human "x").encode.take 1) = .error (.truncated 1) ∧
    LocationBlockData.decodeSeq
      ((LocationBlockData.Position NodeTypeFlags.defaultFlags (.Human "x")).encode.take 2) =
        .error (.truncated 2) ∧
    LocationBlockData.decodeSeq
      ((LocationBlockData.FenceEllipse (.Human "x") 5 6).encode.take 3) =
        .error (.truncated 3) ∧
    LocationBlockData.decodeSeq
      ((LocationBlockData.Trace NodeTypeFlags.defaultFlags .DtnNone (.Human "x")).encode.take 3) =
        .error (.truncated 3) :=
  ⟨claim8_decode_errors.1 9 [] (by decide) (by decide),
   claim8_decode_errors.2.1 (.Human "x") 1 (by decide) (by decide),
   claim8_decode_errors.2.2 (.Position NodeTypeFlags.defaultFlags (.Human "x")) 2
     (by decide) (by decide),
   claim8_decode_errors.2.2 (.FenceEllipse (.Human "x") 5 6) 3 (by decide) (by decide),
   claim8_decode_errors.2.2 (.Trace NodeTypeFlags.defaultFlags .DtnNone (.Human "x")) 3
     (by decide) (by decide)⟩

/-- Claim C3 counterexample: an sms bundle whose destination address uses
the numeric source (producer) convention — ipn service number 767 — is
accepted by `SMSBundle::try_from` rather than rejected: the sms validator
applies one shared convention to both addresses, so no role mismatch
exists to detect, contradicting the claim that a destination using the
source convention is rejected. -/
theorem claim3_counterexample :
    SMSBundle.try_from smsBundle767 = .ok ⟨smsBundle767⟩ ∧
    smsBundle767.primary.destination = .Ipn 2 767 :=
  ⟨rfl, rfl⟩

/-- Claim C3 amended: a wrapped sms (resp. news) bundle always satisfies
the sms convention on both addresses (resp. the news producer convention on
the source and the distinct consumer convention on the destination); for
sms the source and destination conventions are one and the same set, and
every rejection — of either address, or of the payload — returns the single
uniform error `InvalidSmsBundle` / `InvalidNewsBundle`, which does not
identify whether the source or the destination was at fault. -/
theorem claim3_amended_address_conventions :
    (∀ b : Bundle, (SMSBundle.try_from b).isOk = true →
      smsEidOk b.primary.source = true ∧ smsEidOk b.primary.destination = true) ∧
    (∀ b : Bundle, (NewsBundle.try_from b).isOk = true →
      newsSrcOk b.primary.source = true ∧ newsDstOk b.primary.destination = true) ∧
    (∀ (b : Bundle) (e : SmsError), SMSBundle.try_from b = .error e →
      e = .InvalidSmsBundle) ∧
    (∀ (b : Bundle) (e : NewsError), NewsBundle.try_from b = .error e →
      e = .InvalidNewsBundle) ∧
    (newsSrcOk (.Ipn 1 767) = true ∧ newsDstOk (.Ipn 1 767) = false ∧
      newsSrcOk (.Ipn 1 119) = false ∧ newsDstOk (.Ipn 1 119) = true ∧
      smsEidOk (.Ipn 1 767) = true ∧ smsEidOk (.Ipn 1 119) = false) := by
  refine ⟨?_, ?_, ?_, ?_, by decide⟩
  · intro b h
    unfold SMSBundle.try_from at h
    cases hv : SMSBundle.is_valid ⟨b⟩ with
    | error e => rw [hv] at h; simp [Except.isOk, Except.toBool] at h
    | ok u =>
      simp only [SMSBundle.is_valid] at hv
      cases h1 : SMSBundle.is_eid_valid b.primary.source with
      | error e => simp [h1] at hv
      | ok u1 =>
        simp only [h1] at hv
        cases h2 : SMSBundle.is_eid_valid b.primary.destination with
        | error e => simp [h2] at hv
        | ok u2 =>
          exact ⟨by simp [smsEidOk, h1, Except.isOk, Except.toBool], by simp [smsEidOk, h2, Except.isOk, Except.toBool]⟩
  · intro b h
    unfold NewsBundle.try_from at h
    cases hv : NewsBundle.is_valid ⟨b⟩ with
    | error e => rw [hv] at h; simp [Except.isOk, Except.toBool] at h
    | ok u =>
      simp only [NewsBundle.is_valid] at hv
      cases h1 : NewsBundle.is_eid_valid b.primary.source .Src with
      | error e => simp [h1] at hv
      | ok u1 =>
        simp only [h1] at hv
        cases h2 : NewsBundle.is_eid_valid b.primary.destination .Dst with
        | error e => simp [h2] at hv
        | ok u2 =>
          exact ⟨by simp [newsSrcOk, h1, Except.isOk, Except.toBool], by simp [newsDstOk, h2, Except.isOk, Except.toBool]⟩
  · intro b e h
    unfold SMSBundle.try_from at h
    cases hv : SMSBundle.is_valid ⟨b⟩ with
    | error e2 =>
      rw [hv] at h
      exact (Except.error.inj h).symm
    | ok u => rw [hv] at h; simp at h
  · intro b e h
    unfold NewsBundle.try_from at h
    cases hv : NewsBundle.is_valid ⟨b⟩ with
    | error e2 =>
      rw [hv] at h
      exact (Except.error.inj h).symm
    | ok u => rw [hv] at h; simp at h

theorem claim3_amended_witness :
    (smsEidOk smsBundle767.primary.source = true ∧
      smsEidOk smsBundle767.primary.destination = true) ∧
    (newsSrcOk newsBundleExample.primary.source = true ∧
      newsDstOk newsBundleExample.primary.destination = true) ∧
    SmsError.InvalidSmsBundle = SmsError.InvalidSmsBundle :=
  ⟨claim3_amended_address_conventions.1 smsBundle767 (by decide),
   claim3_amended_address_conventions.2.1 newsBundleExample (by decide),
   claim3_amended_address_conventions.2.2.1 smsBundleTildeSrc .InvalidSmsBundle rfl⟩

/-- Claim C4: for a discussion post `P` whose record decodes to `n` and
whose topic accessor yields `T`, building a reply through `reply_to(P)`
with any message text yields a record that carries the same topic, the same
thread id, the same tags, and `P`'s bundle identifier as its reference. -/
theorem claim4_reply_inherits (P : NewsBundle) (n : News) (T m : String) (r : List Nat)
    (hP : P.newsAcc = some n) (hT : News.topicAcc n = some T) :
    ∃ (b : NewsBuilder) (R : News),
      NewsBuilder.reply_to (NewsBuilder.new.setMessage m) P = some b ∧
      b.build r = .ok R ∧
      News.topicAcc R = some T ∧ R.tid = n.tid ∧ R.tags = n.tags ∧
      R.references = some P.id := by
  refine ⟨{ comp := true, enc := false, topic := some T, thread_id := some n.tid,
            references := some P.id, tags := n.tags, msg := some m, sig := none },
          { comp := true, enc := false, topic := smaz_compress (utf8Encode T),
            tid := n.tid, references := some P.id, tags := n.tags,
            msg := smaz_compress (utf8Encode m), sig := none },
          ?_, rfl, ?_, rfl, rfl, rfl⟩
  · simp [NewsBuilder.reply_to, hP, hT, NewsBuilder.new, NewsBuilder.setMessage]
  · simp [News.topicAcc, smaz_decompress_compress, utf8DecodeLossy_utf8Encode]

theorem claim4_witness :
    ∃ (b : NewsBuilder) (R : News),
      NewsBuilder.reply_to (NewsBuilder.new.setMessage "indeed") ⟨newsBundleExample⟩ = some b ∧
      b.build [] = .ok R ∧
      News.topicAcc R = some "weather" ∧ R.tid = newsExample.tid ∧
      R.tags = newsExample.tags ∧ R.references = some (NewsBundle.id ⟨newsBundleExample⟩) :=
  claim4_reply_inherits ⟨newsBundleExample⟩ newsExample "weather" "indeed" []
    (by decide) (by decide)

/-- Claim C9 counterexample: a news bundle whose compressed topic bytes are
a truncated smaz escape passes `NewsBundle::try_from` (validation checks
only the message bytes), yet its `topic()` accessor hits the
`expect("decompressing topic failed")` panic branch, modelled as `none` —
so not every accessor of a validated bundle is panic-free. -/
theorem claim9_counterexample :
    (NewsBundle.try_from newsBundleTopicPanic).isOk = true ∧
    NewsBundle.topicAcc ⟨newsBundleTopicPanic⟩ = none :=
  ⟨by decide, by decide⟩

/-- Claim C9 amended: for a bundle accepted by `SMSBundle::try_from`
(resp. `NewsBundle::try_from`), every read accessor except the news
`topic()` returns a value without panicking — `sms()`/`news()`, `msg()`,
`compression()`, `encryption()`, `signature()`, and for news also
`tid()`, `references()` and `tags()`; the news `topic()` accessor is
panic-free whenever the record's compression flag is off, but may panic on
a validated bundle with malformed compressed topic bytes, because
`is_valid` never checks the topic field. -/
theorem claim9_amended_accessors_safe :
    (∀ (b : Bundle) (sb : SMSBundle), SMSBundle.try_from b = .ok sb →
      ∃ s : SMS, sb.smsAcc = some s ∧ sb.compressionAcc = some s.comp ∧
        sb.encryptionAcc = some s.enc ∧ sb.signatureAcc = some s.sig ∧
        ∃ m, sb.msgAcc = some m) ∧
    (∀ (b : Bundle) (nb : NewsBundle), NewsBundle.try_from b = .ok nb →
      ∃ n : News, nb.newsAcc = some n ∧ nb.compressionAcc = some n.comp ∧
        nb.encryptionAcc = some n.enc ∧ nb.signatureAcc = some n.sig ∧
        nb.tidAcc = some n.tid ∧ nb.referencesAcc = some n.references ∧
        nb.tagsAcc = some n.tags ∧ (∃ m, nb.msgAcc = some m) ∧
        (n.comp = false → ∃ t, nb.topicAcc = some t)) := by
  constructor
  · intro b sb h
    unfold SMSBundle.try_from at h
    cases hv : SMSBundle.is_valid ⟨b⟩ with
    | error e => rw [hv] at h; simp [Except.isOk, Except.toBool] at h
    | ok u =>
      rw [hv] at h
      simp only [Except.ok.injEq] at h
      subst h
      simp only [SMSBundle.is_valid] at hv
      cases h1 : SMSBundle.is_eid_valid b.primary.source with
      | error e => simp [h1] at hv
      | ok u1 =>
        simp only [h1] at hv
        cases h2 : SMSBundle.is_eid_valid b.primary.destination with
        | error e => simp [h2] at hv
        | ok u2 =>
          simp only [h2] at hv
          cases hs : b.primary.source.is_non_singleton with
          | true => simp [hs] at hv
          | false =>
            simp only [hs] at hv
            cases hp : b.payload with
            | none => simp [hp] at hv
            | some p =>
              simp only [hp] at hv
              cases hd : SMS.decode p with
              | error e => simp [hd] at hv
              | ok s =>
                simp only [hd] at hv
                have hacc : SMSBundle.smsAcc ⟨b⟩ = some s := by
                  simp [SMSBundle.smsAcc, hp, hd]
                refine ⟨s, hacc, by simp [SMSBundle.compressionAcc, hacc, SMS.compression],
                  by simp [SMSBundle.encryptionAcc, hacc, SMS.encryption],
                  by simp [SMSBundle.signatureAcc, hacc, SMS.signature], ?_⟩
                cases hc : s.comp with
                | false =>
                  exact ⟨String.mk (utf8DecodeLossy s.msg),
                    by simp [SMSBundle.msgAcc, hacc, SMS.msgAcc, hc]⟩
                | true =>
                  simp only [hc] at hv
                  cases hdc : smaz_decompress s.msg with
                  | none => simp [hdc] at hv
                  | some bs =>
                    exact ⟨String.mk (utf8DecodeLossy bs),
                      by simp [SMSBundle.msgAcc, hacc, SMS.msgAcc, hc, hdc]⟩
  · intro b nb h
    unfold NewsBundle.try_from at h
    cases hv : NewsBundle.is_valid ⟨b⟩ with
    | error e => rw [hv] at h; simp [Except.isOk, Except.toBool] at h
    | ok u =>
      rw [hv] at h
      simp only [Except.ok.injEq] at h
      subst h
      simp only [NewsBundle.is_valid] at hv
      cases h1 : NewsBundle.is_eid_valid b.primary.source .Src with
      | error e => simp [h1] at hv
      | ok u1 =>
        simp only [h1] at hv
        cases h2 : NewsBundle.is_eid_valid b.primary.destination .Dst with
        | error e => simp [h2] at hv
        | ok u2 =>
          simp only [h2] at hv
          cases hp : b.payload with
          | none => simp [hp] at hv
          | some p =>
            simp only [hp] at hv
            cases hd : News.decode p with
            | error e => simp [hd] at hv
            | ok n =>
              simp only [hd] at hv
              have hacc : NewsBundle.newsAcc ⟨b⟩ = some n := by
                simp [NewsBundle.newsAcc, hp, hd]
              refine ⟨n, hacc, by simp [NewsBundle.compressionAcc, hacc, News.compression],
                by simp [NewsBundle.encryptionAcc, hacc, News.encryption],
                by simp [NewsBundle.signatureAcc, hacc, News.signature],
                by simp [NewsBundle.tidAcc, hacc, News.thread_id],
                by simp [NewsBundle.referencesAcc, hacc, News.referencesAcc],
                by simp [NewsBundle.tagsAcc, hacc, News.tagsAcc], ?_, ?_⟩
              · cases hc : n.comp with
                | false =>
                  exact ⟨String.mk (utf8DecodeLossy n.msg),
                    by simp [NewsBundle.msgAcc, hacc, News.msgAcc, hc]⟩
                | true =>
                  simp only [hc] at hv
                  cases hdc : smaz_decompress n.msg with
                  | none => simp [hdc] at hv
                  | some bs =>
                    exact ⟨String.mk (utf8DecodeLossy bs),
                      by simp [NewsBundle.msgAcc, hacc, News.msgAcc, hc, hdc]⟩
              · intro hc
                exact ⟨String.mk (utf8DecodeLossy n.topic),
                  by simp [NewsBundle.topicAcc, hacc, News.topicAcc, hc]⟩

theorem claim9_amended_witness :
    (∃ s : SMS, SMSBundle.smsAcc ⟨smsBundle767⟩ = some s ∧
      SMSBundle.compressionAcc ⟨smsBundle767⟩ = some s.comp ∧
      SMSBundle.encryptionAcc ⟨smsBundle767⟩ = some s.enc ∧
      SMSBundle.signatureAcc ⟨smsBundle767⟩ = some s.sig ∧
      ∃ m, SMSBundle.msgAcc ⟨smsBundle767⟩ = some m) ∧
    (∃ n : News, NewsBundle.newsAcc ⟨newsBundleExample⟩ = some n ∧
      NewsBundle.compressionAcc ⟨newsBundleExample⟩ = some n.comp ∧
      NewsBundle.encryptionAcc ⟨newsBundleExample⟩ = some n.enc ∧
      NewsBundle.signatureAcc ⟨newsBundleExample⟩ = some n.sig ∧
      NewsBundle.tidAcc ⟨newsBundleExample⟩ = some n.tid ∧
      NewsBundle.referencesAcc ⟨newsBundleExample⟩ = some n.references ∧
      NewsBundle.tagsAcc ⟨newsBundleExample⟩ = some n.tags ∧
      (∃ m, NewsBundle.msgAcc ⟨newsBundleExample⟩ = some m) ∧
      (n.comp = false → ∃ t, NewsBundle.topicAcc ⟨newsBundleExample⟩ = some t)) :=
  ⟨claim9_amended_accessors_safe.1 smsBundle767 ⟨smsBundle767⟩ rfl,
   claim9_amended_accessors_safe.2 newsBundleExample ⟨newsBundleExample⟩ rfl⟩

/-- Claim C10: `SMSBundle::try_from` rejects every bundle whose source is a
non-singleton (group) endpoint — for example the dtn source `~sms`, which
passes the service-name check — while applying no singleton restriction to
the destination: the same `~sms` group endpoint is accepted as a
destination. -/
theorem claim10_nonsingleton_source :
    (∀ b : Bundle, (SMSBundle.try_from b).isOk = true →
      b.primary.source.is_non_singleton = false) ∧
    (SMSBundle.try_from smsBundleTildeSrc).isOk = false ∧
    (SMSBundle.try_from smsBundleTildeDst).isOk = true := by
  refine ⟨?_, by decide, by decide⟩
  intro b h
  unfold SMSBundle.try_from at h
  cases hv : SMSBundle.is_valid ⟨b⟩ with
  | error e => rw [hv] at h; simp [Except.isOk, Except.toBool] at h
  | ok u =>
    simp only [SMSBundle.is_valid] at hv
    cases h1 : SMSBundle.is_eid_valid b.primary.source with
    | error e => simp [h1] at hv
    | ok u1 =>
      simp only [h1] at hv
      cases h2 : SMSBundle.is_eid_valid b.primary.destination with
      | error e => simp [h2] at hv
      | ok u2 =>
        simp only [h2] at hv
        cases hs : b.primary.source.is_non_singleton with
        | true => simp [hs] at hv
        | false => rfl

theorem claim10_witness :
    smsBundleTildeDst.primary.source.is_non_singleton = false :=
  claim10_nonsingleton_source.1 smsBundleTildeDst (by decide)

end DTN7
